import Mathlib

/-!
Shallow embedding of the `hanabi` turn-based game server
(crates `turnbased-game-server` and `hanabi`), with proofs about the
room lifecycle, the action dispatcher, the broadcast fan-out and the
Hanabi rules engine.

Conventions of the embedding:
* Rust `HashMap` values are association lists with unique keys
  (`AList.lookup` / `AList.insert` / `AList.update` / `AList.erase`).
* A Rust panic (`unwrap`, out-of-bounds index, `panic!`, `unreachable!`)
  is `Option.none` (or the `.panic` constructor of `MRes`).
* A Rust `fn(&mut self) -> Result<(), &str>` is a function returning
  `MRes σ`: `.ok st` for `Ok(())`, `.err msg st` for `Err(msg)` — the
  carried state `st` is the receiver after the call, which keeps any
  mutation the Rust code performed before returning the error.
* `usize` arithmetic that can wrap (release-mode Rust) is modelled with
  an explicit `% 2^64`.
-/

namespace AMap

/-- `HashMap::get` — first (and with unique keys, only) binding of `k`. -/
def lookup {κ α : Type} [DecidableEq κ] : List (κ × α) → κ → Option α
  | [], _ => none
  | (k', v) :: t, k => if k = k' then some v else lookup t k

/-- `HashMap::insert` — replace the binding of `k`, or append a new one. -/
def insert {κ α : Type} [DecidableEq κ] : List (κ × α) → κ → α → List (κ × α)
  | [], k, v => [(k, v)]
  | (k', v') :: t, k, v => if k = k' then (k, v) :: t else (k', v') :: insert t k v

/-- Mutation through `HashMap::get_mut` of an existing binding. -/
def update {κ α : Type} [DecidableEq κ] : List (κ × α) → κ → (α → α) → List (κ × α)
  | [], _, _ => []
  | (k', v') :: t, k, f => if k = k' then (k', f v') :: t else (k', v') :: update t k f

/-- `HashMap::remove` (the value was already extracted via `lookup`). -/
def erase {κ α : Type} [DecidableEq κ] (l : List (κ × α)) (k : κ) : List (κ × α) :=
  l.filter (fun p => p.1 ≠ k)

end AMap

/-! ## The Hanabi rules engine (crate `hanabi`, `src/lib.rs`) -/

namespace Hanabi

def MAX_HINTS : Nat := 8
def MAX_LIVES : Nat := 3
/-- `pub type Value = usize`. -/
abbrev Value := Nat
def MAX_VALUE : Value := 5

inductive Color where
  | Blue | Green | Red | White | Yellow | Multi
  deriving DecidableEq, Repr

/-- The discriminant of `Color` (`c as usize`). -/
def Color.toIdx : Color → Nat
  | .Blue => 0
  | .Green => 1
  | .Red => 2
  | .White => 3
  | .Yellow => 4
  | .Multi => 5

def MAX_COLORS : Nat := 6

def COLORS : List Color :=
  [.Blue, .Green, .Red, .White, .Yellow, .Multi]

structure Card where
  c : Color
  v : Value
  deriving DecidableEq, Repr

/-- `enum Deck { Visible(Vec<Card>), Hidden(usize) }`. -/
inductive Deck where
  | Visible (cards : List Card)
  | Hidden (len : Nat)
  deriving DecidableEq, Repr

inductive GameVariant where
  | Base | Multi | MultiHard
  deriving DecidableEq, Repr

def GameVariant.numColors : GameVariant → Nat
  | .Base => 5
  | .Multi | .MultiHard => 6

def GameVariant.maxScore (v : GameVariant) : Nat := 5 * v.numColors

def GameVariant.hasMulti : GameVariant → Bool
  | .Base => false
  | .Multi | .MultiHard => true

def GameVariant.colors : GameVariant → List Color
  | .Base => [.Blue, .Green, .Red, .White, .Yellow]
  | .Multi | .MultiHard => [.Blue, .Green, .Red, .White, .Yellow, .Multi]

namespace Deck

/-- `Deck::count`; the `_ => panic!()` arm is `none`. -/
def count (variant : GameVariant) (c : Color) (v : Value) : Option Nat :=
  if c = Color.Multi ∧ variant = GameVariant.MultiHard then some 1
  else match v with
    | 1 => some 3
    | 2 | 3 | 4 => some 2
    | 5 => some 1
    | _ => none

/-- The unshuffled card list built by `Deck::new` (every `v` passed to
`Deck::count` here lies in `1..=MAX_VALUE`, so the `getD` default is
never taken). -/
def newCards (variant : GameVariant) : List Card :=
  variant.colors.flatMap fun c =>
    (List.range' 1 MAX_VALUE).flatMap fun v =>
      List.replicate ((count variant c v).getD 0) ⟨c, v⟩

/-- `Deck::take` — `cards.pop()`; `panic!()` on a `Hidden` deck is `none`.
The inner `Option` is `pop`'s result. -/
def take : Deck → Option (Option Card × Deck)
  | .Visible cards => some (cards.getLast?, .Visible cards.dropLast)
  | .Hidden _ => none

def isEmpty : Deck → Bool
  | .Visible cards => cards.isEmpty
  | .Hidden len => len == 0

def len : Deck → Nat
  | .Visible cards => cards.length
  | .Hidden len => len

/-- `Deck::view` — replaces the deck by `Hidden` of its length. -/
def view (d : Deck) : Deck := .Hidden d.len

end Deck

inductive KnowledgeState where
  | Possible | Known | Impossible
  deriving DecidableEq, Repr

inductive Turn where
  | Start
  | Turn (n : Nat)
  deriving DecidableEq, Repr

/-- `CardKnowledge`: `vs` has length `MAX_VALUE` (index = value − 1),
`cs` has length `MAX_COLORS` (index = `Color::toIdx`). -/
structure CardKnowledge where
  vs : List KnowledgeState
  cs : List KnowledgeState
  pickedUp : Turn
  deriving DecidableEq, Repr

def CardKnowledge.new (variant : GameVariant) (turn : Turn) : CardKnowledge :=
  let this : CardKnowledge :=
    { vs := List.replicate MAX_VALUE .Possible
      cs := List.replicate MAX_COLORS .Possible
      pickedUp := turn }
  if variant.hasMulti then this
  else { this with cs := this.cs.set Color.Multi.toIdx .Impossible }

structure CardWithKnowledge where
  card : Card
  know : CardKnowledge
  deriving DecidableEq, Repr

inductive Hand where
  | Visible (cards : List CardWithKnowledge)
  | Hidden (knows : List CardKnowledge)
  deriving DecidableEq, Repr

inductive Hint where
  | ValueHint (v : Value)
  | ColorHint (c : Color)
  deriving DecidableEq, Repr

/-- `CardIdx` is a transparent wrapper around a 1-based `usize` index. -/
abbrev CardIdx := Nat

inductive Move where
  | Play (cardIdx : CardIdx)
  | Discard (cardIdx : CardIdx)
  | Hint (hintedPlayer : Nat) (hint : Hanabi.Hint)
  | HintOtherPlayer (hint : Hanabi.Hint)
  deriving DecidableEq, Repr

inductive MoveLog where
  | Play (cardIdx : CardIdx) (card : Card) (know : CardKnowledge) (success : Bool)
  | Discard (cardIdx : CardIdx) (card : Card) (know : CardKnowledge)
  | Hint (hintedPlayer : Nat) (hint : Hanabi.Hint) (cardIndices : List CardIdx)
  deriving DecidableEq, Repr

structure PlayerMoveLog where
  player : Nat
  mov : MoveLog
  deriving DecidableEq, Repr

inductive GameState where
  | NextPlayer (p : Nat)
  | Won | Died | Ended
  deriving DecidableEq, Repr

def GameState.hasEnded : GameState → Bool
  | .NextPlayer _ => false
  | _ => true

end Hanabi

namespace Hanabi

/-- 2^64, the modulus of `usize` arithmetic. -/
def USIZE_MOD : Nat := 18446744073709551616

/-- `card_idx.0 - 1` on a `usize` (release mode wraps on underflow). -/
def usizeSub1 (n : Nat) : Nat := (n + (USIZE_MOD - 1)) % USIZE_MOD

/-- `know.vs.iter_mut().find(|s| s == Possible).unwrap() = Known`:
replace the first `Possible` entry by `Known` (the caller guards that one
exists, so the missing-entry `unwrap` panic is unreachable). -/
def setFirstPossible : List KnowledgeState → List KnowledgeState
  | [] => []
  | .Possible :: t => .Known :: t
  | s :: t => s :: setFirstPossible t

/-- `if <exactly one Possible remains> { <set it to Known> }`. -/
def normalizeOne (l : List KnowledgeState) : List KnowledgeState :=
  if l.count .Possible = 1 then setFirstPossible l else l

/-- The `ValueHint` loop body of `Hand::hint` applied to one card. -/
def hintValueCard (v : Value) (cwk : CardWithKnowledge) : Bool × CardWithKnowledge :=
  if v = cwk.card.v then
    (true, { cwk with know := { cwk.know with
      vs := (List.replicate MAX_VALUE KnowledgeState.Impossible).set (v - 1) .Known } })
  else
    (false, { cwk with know := { cwk.know with
      vs := normalizeOne (cwk.know.vs.set (v - 1) .Impossible) } })

/-- The `ColorHint` loop body of `Hand::hint` applied to one card. -/
def hintColorCard (c : Color) (cwk : CardWithKnowledge) : Bool × CardWithKnowledge :=
  let cs :=
    if cwk.card.c = c ∨ cwk.card.c = Color.Multi then
      -- keep `c` and `Multi` possible, everything else becomes impossible
      cwk.know.cs.mapIdx fun i s =>
        if i = c.toIdx ∨ i = Color.Multi.toIdx then s else .Impossible
    else
      (cwk.know.cs.set Color.Multi.toIdx .Impossible).set c.toIdx .Impossible
  -- in the ColorHint arm the single-possible normalization runs for
  -- every card, whether or not the hint matched
  (cwk.card.c = c ∨ cwk.card.c = Color.Multi,
    { cwk with know := { cwk.know with cs := normalizeOne cs } })

/-- The `Hand::hint` loop: maps the per-card body over the hand and
collects the 1-based indices (`CardIdx(idx + 1)`) of matching cards. -/
def hintLoop (body : CardWithKnowledge → Bool × CardWithKnowledge) :
    List CardWithKnowledge → Nat → List CardWithKnowledge × List CardIdx
  | [], _ => ([], [])
  | cwk :: t, idx =>
    let (hit, cwk') := body cwk
    let (rest, idxs) := hintLoop body t (idx + 1)
    (cwk' :: rest, if hit then (idx + 1) :: idxs else idxs)

namespace Hand

/-- `Hand::new` — deal `cardsPerPlayer` cards off the deck;
`deck.take().unwrap()` panics (`none`) when the deck runs out. -/
def deal (variant : GameVariant) : Nat → Deck → Option (List CardWithKnowledge × Deck)
  | 0, d => some ([], d)
  | n + 1, d =>
    (Deck.take d).bind fun oc =>
      match oc with
      | (none, _) => none
      | (some c, d') =>
        (deal variant n d').map fun r =>
          (⟨c, CardKnowledge.new variant .Start⟩ :: r.1, r.2)

def new (variant : GameVariant) (cardsPerPlayer : Nat) (deck : Deck) :
    Option (Hand × Deck) :=
  (deal variant cardsPerPlayer deck).map fun r => (.Visible r.1, r.2)

/-- `Hand::draw` — pop a card off the deck if any; `panic!()` (`none`)
on a `Hidden` hand. -/
def draw (h : Hand) (variant : GameVariant) (deck : Deck) : Option (Hand × Deck) :=
  match h with
  | .Hidden _ => none
  | .Visible cards =>
    (Deck.take deck).map fun r =>
      match r with
      | (none, d') => (.Visible cards, d')
      | (some c, d') => (.Visible (cards ++ [⟨c, CardKnowledge.new variant .Start⟩]), d')

/-- `Hand::take` — remove the card at 1-based `cardIdx`; the inner
`Option` is `None` when `card_idx.0 - 1` (usize-wrapping) is out of
range; `panic!()` (outer `none`) on a `Hidden` hand. -/
def take (h : Hand) (cardIdx : CardIdx) : Option (Option (CardWithKnowledge × Hand)) :=
  match h with
  | .Hidden _ => none
  | .Visible cards =>
    let i := usizeSub1 cardIdx
    if hlt : i < cards.length then
      some (some (cards.get ⟨i, hlt⟩, .Visible (cards.eraseIdx i)))
    else
      some none

/-- `Hand::hint` — `panic!()` (`none`) on a `Hidden` hand; `Err`
(`Except.error`) when the hint itself is invalid, raised before any
knowledge is touched. -/
def hint (h : Hand) (hint : Hint) : Option (Except String (List CardIdx × Hand)) :=
  match h with
  | .Hidden _ => none
  | .Visible cards =>
    match hint with
    | .ValueHint v =>
      if ¬(1 ≤ v ∧ v ≤ MAX_VALUE) then some (.error "Hinted value is out of range.")
      else
        let r := hintLoop (hintValueCard v) cards 0
        some (.ok (r.2, .Visible r.1))
    | .ColorHint c =>
      if c = Color.Multi then some (.error "Hinting multi is not allowed.")
      else
        let r := hintLoop (hintColorCard c) cards 0
        some (.ok (r.2, .Visible r.1))

/-- `Hand::to_view` — drop the cards, keep the knowledge; `panic!()`
(`none`) on a hand that is already `Hidden`. -/
def toView : Hand → Option (List CardKnowledge)
  | .Visible cards => some (cards.map fun cwk => cwk.know)
  | .Hidden _ => none

end Hand

end Hanabi

namespace Hanabi

/-- `Played(Vec<usize>)` — one pile count per colour of the variant. -/
abbrev Played := List Nat

def Played.new (variant : GameVariant) : Played := List.replicate variant.numColors 0

def Played.score (p : Played) : Nat := p.sum

/-- `Played::play` — `Ok` with the updated piles when the card is the
next one of its colour, `Err` (card is handed back for discarding)
otherwise. -/
def Played.play (p : Played) (card : Card) : Except Card (Card × Played) :=
  let cur := p.getD card.c.toIdx 0
  if card.v ≠ cur + 1 then .error card
  else .ok (card, p.set card.c.toIdx (cur + 1))

/-- Result of a Rust `fn(&mut self, ..) -> Result<(), &str>` call:
`ok`/`err` carry the receiver after the call (an `err` keeps whatever
mutation happened before the error was returned), `panic` is a panic. -/
inductive MRes (σ : Type) where
  | panic
  | err (msg : String) (st : σ)
  | ok (st : σ)
  deriving DecidableEq, Repr

/-- The random choices `Game::new` draws from `thread_rng()`:
`players.shuffle`, `gen_range(0..num_players)` and `cards.shuffle`. -/
structure Rng where
  shufflePlayers : List String → List String
  genRange : Nat → Nat
  shuffleDeck : List Card → List Card

/-- The `match num_players` in `Game::new` computing `cards_per_player`;
its `_ => panic!()` arm is `none`. -/
def cardsPerPlayerOf : Nat → Option Nat
  | 2 | 3 => some 5
  | 4 | 5 => some 4
  | _ => none

structure Game where
  players : List String
  startPlayer : Nat
  gameState : GameState
  /-- Set as soon as the deck is empty. -/
  lastPlayer : Option Nat
  cardsPerPlayer : Nat
  hints : Nat
  lives : Nat
  variant : GameVariant
  deck : Deck
  hands : List Hand
  discarded : List Card
  played : Played
  moveLog : List PlayerMoveLog
  deriving DecidableEq, Repr

namespace Game

/-- Deal one hand per player (`(0..num_players).map(|_| Hand::new(..))`). -/
def dealHands (variant : GameVariant) (cardsPerPlayer : Nat) :
    Nat → Deck → Option (List Hand × Deck)
  | 0, d => some ([], d)
  | n + 1, d =>
    (Hand.new variant cardsPerPlayer d).bind fun r =>
      (dealHands variant cardsPerPlayer n r.2).map fun r' => (r.1 :: r'.1, r'.2)

/-- `Game::new`. `num_players` is read before the shuffle; the panics —
`gen_range` on an empty range, the `cards_per_player` match, and deck
exhaustion while dealing — are `none`. -/
def new (rng : Rng) (players : List String) (variant : GameVariant) : Option Game :=
  let numPlayers := players.length
  let players := rng.shufflePlayers players
  if numPlayers = 0 then none
  else
    let startPlayer := rng.genRange numPlayers % numPlayers
    match cardsPerPlayerOf numPlayers with
    | none => none
    | some cardsPerPlayer =>
      let deck := Deck.Visible (rng.shuffleDeck (Deck.newCards variant))
      (dealHands variant cardsPerPlayer numPlayers deck).map fun r =>
        { players := players
          startPlayer := startPlayer
          gameState := .NextPlayer startPlayer
          lastPlayer := none
          cardsPerPlayer := cardsPerPlayer
          hints := MAX_HINTS
          lives := MAX_LIVES
          variant := variant
          deck := r.2
          hands := r.1
          discarded := []
          played := Played.new variant
          moveLog := [] }

/-- `Game::player_id` — position of the name in the player list. -/
def playerId (g : Game) (player : String) : Option Nat :=
  g.players.findIdx? (fun x => x = player)

/-- `Game::hint`. Note that `self.hints -= 1` happens before
`self.hands[hinted_player].hint(hint)?`, so when the hand rejects the
hint the decremented counter is kept in the carried error state. -/
def hint (g : Game) (hintedPlayer : Nat) (player : Nat) (h : Hint) : MRes Game :=
  if g.hints = 0 then .err "No hints remaining; hinting not allowed." g
  else if hintedPlayer = player then .err "Hinting yourself is not allowed." g
  else if ¬ hintedPlayer < g.players.length then .err "Player out of range" g
  else
    let g1 := { g with hints := g.hints - 1 }
    match g1.hands.get? hintedPlayer with
    | none => .panic
    | some hand =>
      match hand.hint h with
      | none => .panic
      | some (.error e) => .err e g1
      | some (.ok (cardIndices, hand')) =>
        .ok { g1 with
          hands := g1.hands.set hintedPlayer hand'
          moveLog := g1.moveLog ++ [PlayerMoveLog.mk player (.Hint hintedPlayer h cardIndices)] }

/-- The `// End the game?` update at the end of `Game::make_move`,
followed by the last-turn bookkeeping. -/
def endTurn (g : Game) (player : Nat) : Game :=
  let gs : GameState :=
    if g.lives = 0 then .Died
    else if g.played.score = g.variant.maxScore then .Won
    else if g.lastPlayer = some player then .Ended
    else .NextPlayer ((player + 1) % g.players.length)
  let g1 := { g with gameState := gs }
  if g1.deck.isEmpty ∧ g1.lastPlayer = none then { g1 with lastPlayer := some player }
  else g1

/-- `Game::make_move` (by player index). -/
def makeMove (g : Game) (player : Nat) (mov : Move) : MRes Game :=
  match g.gameState with
  | .NextPlayer nextPlayer =>
    if player ≠ nextPlayer then .err "Not this player's turn." g
    else
      match mov with
      | .Play cardIdx =>
        match g.hands.get? player with
        | none => .panic
        | some hand =>
          match hand.take cardIdx with
          | none => .panic
          | some none => .err "Card index out of range." g
          | some (some (⟨card, know⟩, hand')) =>
            let g1 : Game :=
              match g.played.play card with
              | .ok (card', played') =>
                { g with played := played'
                         hints := if card'.v = MAX_VALUE then g.hints + 1 else g.hints }
              | .error card' =>
                { g with discarded := g.discarded ++ [card'], lives := g.lives - 1 }
            let success := match g.played.play card with | .ok _ => true | .error _ => false
            match (hand').draw g1.variant g1.deck with
            | none => .panic
            | some (hand'', deck') =>
              let g2 := { g1 with
                hands := g1.hands.set player hand''
                deck := deck'
                moveLog := g1.moveLog ++ [PlayerMoveLog.mk player (.Play cardIdx card know success)] }
              .ok (g2.endTurn player)
      | .Discard cardIdx =>
        if g.hints = MAX_HINTS then .err "Already at max hints; discarding not allowed." g
        else
          match g.hands.get? player with
          | none => .panic
          | some hand =>
            match hand.take cardIdx with
            | none => .panic
            | some none => .err "Card index out of range." g
            | some (some (⟨card, know⟩, hand')) =>
              let g1 : Game := { g with
                discarded := g.discarded ++ [card]
                hints := g.hints + 1 }
              match (hand').draw g1.variant g1.deck with
              | none => .panic
              | some (hand'', deck') =>
                let g2 := { g1 with
                  hands := g1.hands.set player hand''
                  deck := deck'
                  moveLog := g1.moveLog ++ [PlayerMoveLog.mk player (.Discard cardIdx card know)] }
                .ok (g2.endTurn player)
      | .Hint hintedPlayer h =>
        match g.hint hintedPlayer player h with
        | .panic => .panic
        | .err e g' => .err e g'
        | .ok g' => .ok (g'.endTurn player)
      | .HintOtherPlayer h =>
        if g.players.length = 2 then
          match g.hint ((player + 1) % 2) player h with
          | .panic => .panic
          | .err e g' => .err e g'
          | .ok g' => .ok (g'.endTurn player)
        else .err "Specify the player to hint" g
  | _ => .err "Game has ended." g

/-- `Game::to_view` (by player index): hide the deck and the named
player's own hand; `Hand::to_view` panics (`none`) when that hand is
already hidden. -/
def toView (g : Game) (player : Nat) : Option Game :=
  let deck' := g.deck.view
  match g.hands.get? player with
  | none => none
  | some h =>
    (h.toView).map fun knows =>
      { g with deck := deck', hands := g.hands.set player (.Hidden knows) }

def hasEnded (g : Game) : Bool := g.gameState.hasEnded

/-- `<Game as GameT>::make_move` — resolve the player name first. -/
def makeMoveByName (g : Game) (player : String) (mov : Move) : MRes Game :=
  match g.playerId player with
  | none => .err "Player not found" g
  | some p => g.makeMove p mov

/-- `<Game as GameT>::to_view` — participants get the redacted view,
unknown names get the unmodified clone. -/
def toViewByName (g : Game) (player : String) : Option Game :=
  match g.playerId player with
  | some p => g.toView p
  | none => some g

end Game

end Hanabi

/-! ## The turn-based game server (crate `turnbased-game-server`,
`src/types.rs` and `src/server.rs`), generic over the `GameT` game
contract exactly as `ServerState<Game: GameT>` is. -/

namespace Server

/-- `pub type UserId = String`. -/
abbrev UserId := String

/-- `pub type ClientId = std::net::SocketAddr` — an opaque identifier;
modelled as `Nat`. -/
abbrev ClientId := Nat

/-- The `GameT` capability set as consumed by the server: construct
(`new`, panics become `none`), apply a move by user name (`make_move`,
an `MRes` as for the Hanabi engine), and produce a player-scoped view
(`to_view`, panics become `none`). -/
structure GameI (G S M : Type) where
  new : List UserId → S → Option G
  makeMove : G → UserId → M → Hanabi.MRes G
  toView : G → UserId → Option G

/-- `enum RoomState<Game>`; the `Option` is `None` when viewing the
list of all games. -/
inductive RoomState (G : Type) where
  | WaitingForPlayers (minPlayers maxPlayers : Nat)
  | Started (g : Option G)
  | Ended (g : Option G)
  deriving DecidableEq, Repr

structure Room (G S : Type) where
  roomid : Nat
  settings : S
  players : List UserId
  state : RoomState G
  deriving DecidableEq, Repr

/-- `enum Action<Game>`. -/
inductive Action (S M : Type) where
  | Login (userid : UserId)
  | Logout
  | WatchRoom (roomid : Nat)
  | LeaveRoom
  | NewRoom (minPlayers maxPlayers : Nat) (settings : S)
  | JoinRoom
  | StartGame
  | MakeMove (mov : M)
  deriving DecidableEq, Repr

/-- `enum Response<Game>`; `RoomResp` is the source's `Response::Room`. -/
inductive Response (G S : Type) where
  | NotLoggedIn
  | RoomList (rooms : List (Room G S))
  | RoomResp (room : Room G S)
  | Error (msg : String)
  deriving DecidableEq, Repr

/-- `struct User` (only its `sockets: Vec<ClientId>` field is live). -/
structure UserR where
  sockets : List ClientId
  deriving DecidableEq, Repr

/-- `struct Client`, minus the output sink (outputs are modelled as the
message lists returned by the operations). -/
structure Client where
  userid : Option UserId
  roomid : Option Nat
  deriving DecidableEq, Repr

/-- `ServerState<Game>`: the users map, the room vector (each room
paired with its watcher list), and the clients map. -/
structure ServerState (G S : Type) where
  users : List (UserId × UserR)
  rooms : List (Room G S × List ClientId)
  clients : List (ClientId × Client)
  deriving DecidableEq, Repr

/-- `RoomState::make_move` (`types.rs`): delegates to the game; the
`g.as_mut().unwrap()` on `Started(None)` is a panic. -/
def RoomState.makeMove {G S M : Type} (I : GameI G S M) (rs : RoomState G)
    (userid : UserId) (mov : M) : Hanabi.MRes (RoomState G) :=
  match rs with
  | .WaitingForPlayers mn mx => .err "Game did not start yet" (.WaitingForPlayers mn mx)
  | .Started none => .panic
  | .Started (some g) =>
    match I.makeMove g userid mov with
    | .panic => .panic
    | .err e g' => .err e (.Started (some g'))
    | .ok g' => .ok (.Started (some g'))
  | .Ended g => .err "Game already finished" (.Ended g)

/-- `Room::to_list_item` (`types.rs`). -/
def Room.toListItem {G S : Type} (room : Room G S) : Room G S :=
  { room with state :=
      match room.state with
      | .Started _ => .Started none
      | .Ended _ => .Ended none
      | s => s }

/-- `Room::to_view` (`types.rs`): only a `Started` game is passed
through the game's `to_view` (whose panic is `none`); every other state
— including `Ended` — is cloned as-is. -/
def Room.toView {G S M : Type} (I : GameI G S M) (room : Room G S) (userid : UserId) :
    Option (Room G S) :=
  match room.state with
  | .Started (some g) =>
    (I.toView g userid).map fun g' => { room with state := .Started (some g') }
  | .Started none => some { room with state := .Started none }
  | s => some { room with state := s }

/-- `Room::start_game` (`types.rs`): on a `WaitingForPlayers` room
construct the game (its panic is `none`) and move to `Started`; on any
other state `return;` leaves the room unchanged. -/
def Room.startGame {G S M : Type} (I : GameI G S M) (room : Room G S) :
    Option (Room G S) :=
  match room.state with
  | .WaitingForPlayers _ _ =>
    (I.new room.players room.settings).map fun g => { room with state := .Started (some g) }
  | _ => some room

end Server

namespace Server

variable {G S M : Type}

namespace ServerState

/-- `ServerState::room_list`. -/
def roomList (s : ServerState G S) : Response G S :=
  .RoomList (s.rooms.map fun rw => rw.1.toListItem)

/-- `ServerState::leave_room`: if the client watches a room, drop it
from that room's watcher list (`retain`) and clear its `roomid`. The
`clients.get(..).unwrap()` panics (`none`) on an unknown client, and
`watchers_mut` panics on an out-of-range room index. -/
def leaveRoom (s : ServerState G S) (clientid : ClientId) : Option (ServerState G S) :=
  match AMap.lookup s.clients clientid with
  | none => none
  | some cl =>
    match cl.roomid with
    | none => some s
    | some roomid =>
      match s.rooms.get? roomid with
      | none => none
      | some (room, ws) =>
        let s1 := { s with rooms := s.rooms.set roomid (room, ws.filter (· ≠ clientid)) }
        some { s1 with clients := AMap.update s1.clients clientid fun c => { c with roomid := none } }

/-- `ServerState::logout`: leave the watched room, then detach the
socket from its user (`users.get_mut(..).unwrap()` panics when the
logged-in user is missing from the map). -/
def logout (s : ServerState G S) (clientid : ClientId) : Option (ServerState G S) :=
  (s.leaveRoom clientid).bind fun s1 =>
    match AMap.lookup s1.clients clientid with
    | none => none
    | some cl =>
      match cl.userid with
      | none => some s1
      | some u =>
        match AMap.lookup s1.users u with
        | none => none
        | some usr =>
          let s2 := { s1 with
            users := AMap.update s1.users u fun _ => { usr with sockets := usr.sockets.filter (· ≠ clientid) } }
          some { s2 with clients := AMap.update s2.clients clientid fun c => { c with userid := none } }

/-- `ServerState::watch_room`: leave the old room, set the new
`roomid`, push onto the new room's watcher list (`watchers_mut`
panics — `none` — when `roomid` is not an existing room index). -/
def watchRoom (s : ServerState G S) (clientid : ClientId) (roomid : Nat) :
    Option (ServerState G S) :=
  (s.leaveRoom clientid).bind fun s1 =>
    match AMap.lookup s1.clients clientid with
    | none => none
    | some _ =>
      let s2 := { s1 with clients := AMap.update s1.clients clientid fun c => { c with roomid := some roomid } }
      match s2.rooms.get? roomid with
      | none => none
      | some (room, ws) =>
        some { s2 with rooms := s2.rooms.set roomid (room, ws ++ [clientid]) }

/-- `ServerState::disconnect`: remove the client record, drop it from
its watched room's watcher list and from its user's socket list. -/
def disconnect (s : ServerState G S) (clientid : ClientId) : Option (ServerState G S) :=
  match AMap.lookup s.clients clientid with
  | none => none
  | some cl =>
    let s1 := { s with clients := AMap.erase s.clients clientid }
    (match cl.roomid with
     | none => some s1
     | some roomid =>
       match s1.rooms.get? roomid with
       | none => none
       | some (room, ws) =>
         some { s1 with rooms := s1.rooms.set roomid (room, ws.filter (· ≠ clientid)) }).bind
      fun s2 =>
        match cl.userid with
        | none => some s2
        | some u =>
          match AMap.lookup s2.users u with
          | none => none
          | some usr =>
            some { s2 with
              users := AMap.update s2.users u fun _ => { usr with sockets := usr.sockets.filter (· ≠ clientid) } }

/-- `ServerState::connect`: register a fresh client and send it
`NotLoggedIn` (the returned message). -/
def connect (s : ServerState G S) (clientid : ClientId) :
    ServerState G S × Response G S :=
  ({ s with clients := AMap.insert s.clients clientid { userid := none, roomid := none } },
    .NotLoggedIn)

/-- `ServerState::start_game` (`server.rs`): only membership of the
caller in the room's player list is checked; the count is not. -/
def startGame (I : GameI G S M) (s : ServerState G S) (userid : UserId) (roomid : Nat) :
    Option (Except String (ServerState G S)) :=
  match s.rooms.get? roomid with
  | none => none
  | some (room, ws) =>
    if userid ∈ room.players then
      (Room.startGame I room).map fun room' =>
        .ok { s with rooms := s.rooms.set roomid (room', ws) }
    else some (.error "User did not join room")

/-- The broadcast fan-out loop at the end of `handle_action`: for every
watcher of the room, look its client up (`unwrap`), take its user id
(`unwrap`) and send it the room view. Any of those panics, or a panic
inside the game's `to_view`, is `none`. -/
def fanout (I : GameI G S M) (clients : List (ClientId × Client)) (room : Room G S) :
    List ClientId → Option (List (ClientId × Response G S))
  | [] => some []
  | wc :: rest =>
    match AMap.lookup clients wc with
    | none => none
    | some cl =>
      match cl.userid with
      | none => none
      | some u =>
        match Room.toView I room u with
        | none => none
        | some rv => (fanout I clients room rest).map fun tail => (wc, .RoomResp rv) :: tail

end ServerState

/-- What one `handle_action` call produces: the successor state, the
messages pushed to watchers by the fan-out loop (in watcher order), and
the optional direct response sent back to the acting client. -/
structure HandleResult (G S : Type) where
  state : ServerState G S
  broadcasts : List (ClientId × Response G S)
  response : Option (Response G S)
  deriving DecidableEq, Repr

end Server

namespace Server

namespace ServerState

variable {G S M : Type}

/-- `ServerState::handle_action` (`server.rs`). Mirrors the source's
control flow: the three always-allowed actions first, then the login
check, then the two room-independent actions, then the
watched-room-dependent actions with the final broadcast fan-out. A
panic anywhere (unknown client, out-of-range room index, panic inside
the game, the `unreachable!()` arm) is `none`. -/
def handleAction (I : GameI G S M) (s : ServerState G S) (clientid : ClientId)
    (action : Action S M) : Option (HandleResult G S) :=
  match action with
  | .Login loginUserid =>
    (s.logout clientid).bind fun s1 =>
      match AMap.lookup s1.clients clientid with
      | none => none
      | some _ =>
        let s2 := { s1 with clients := AMap.update s1.clients clientid fun c => { c with userid := some loginUserid } }
        let s3 := { s2 with users := AMap.insert s2.users loginUserid { sockets := [] } }
        some { state := s3, broadcasts := [], response := some s3.roomList }
  | .Logout =>
    (s.logout clientid).map fun s1 =>
      { state := s1, broadcasts := [], response := some .NotLoggedIn }
  | .LeaveRoom =>
    (s.leaveRoom clientid).map fun s1 =>
      { state := s1, broadcasts := [], response := some s1.roomList }
  | _ =>
    -- Remaining actions require a user to be logged in.
    match AMap.lookup s.clients clientid with
    | none => none
    | some cl =>
      match cl.userid with
      | none => some { state := s, broadcasts := [], response := some .NotLoggedIn }
      | some userid =>
        match action with
        | .NewRoom minPlayers maxPlayers settings =>
          let roomid := s.rooms.length
          let newRoom : Room G S :=
            { roomid := roomid, settings := settings, players := [userid]
              state := .WaitingForPlayers minPlayers maxPlayers }
          let s1 := { s with rooms := s.rooms ++ [(newRoom, [clientid])] }
          (s1.leaveRoom clientid).bind fun s2 =>
            match AMap.lookup s2.clients clientid with
            | none => none
            | some _ =>
              let s3 := { s2 with clients := AMap.update s2.clients clientid fun c => { c with roomid := some roomid } }
              match s3.rooms.get? roomid with
              | none => none
              | some (room, _) =>
                (Room.toView I room userid).map fun rv =>
                  { state := s3, broadcasts := [], response := some (.RoomResp rv) }
        | .WatchRoom roomid =>
          (s.watchRoom clientid roomid).bind fun s1 =>
            match s1.rooms.get? roomid with
            | none => none
            | some (room, _) =>
              (Room.toView I room userid).map fun rv =>
                { state := s1, broadcasts := [], response := some (.RoomResp rv) }
        | _ =>
          -- Remaining actions act on the room the client was watching
          -- when the action arrived (`roomid` was read before the match).
          match cl.roomid with
          | none => some { state := s, broadcasts := [], response := none }
          | some roomid =>
            let afterRoomAction : Option (Option (ServerState G S) × Option (Response G S)) :=
              match action with
              | .JoinRoom =>
                match s.rooms.get? roomid with
                | none => none
                | some (room, ws) =>
                  match room.state with
                  | .WaitingForPlayers _ maxPlayers =>
                    if userid ∈ room.players then
                      some (none, some (.Error "User is already in room"))
                    else if room.players.length = maxPlayers then
                      some (none, some (.Error "Room is already full"))
                    else
                      let room1 := { room with players := room.players ++ [userid] }
                      let s1 := { s with rooms := s.rooms.set roomid (room1, ws) }
                      if room1.players.length = maxPlayers then
                        match startGame I s1 userid roomid with
                        | none => none
                        | some (.error e) => some (some s1, some (.Error e))
                        | some (.ok s2) => some (some s2, none)
                      else some (some s1, none)
                  | _ => some (none, some (.Error "Room is not waiting for players"))
              | .StartGame =>
                match startGame I s userid roomid with
                | none => none
                | some (.error e) => some (none, some (.Error e))
                | some (.ok s1) => some (some s1, none)
              | .MakeMove mov =>
                match s.rooms.get? roomid with
                | none => none
                | some (room, ws) =>
                  if userid ∈ room.players then
                    match RoomState.makeMove I room.state userid mov with
                    | .panic => none
                    | .err e rs' =>
                      some (some { s with rooms := s.rooms.set roomid ({ room with state := rs' }, ws) },
                        some (.Error e))
                    | .ok rs' =>
                      some (some { s with rooms := s.rooms.set roomid ({ room with state := rs' }, ws) },
                        none)
                  else some (none, some (.Error "User did not join room"))
              | _ => none  -- the `unreachable!()` arm
            afterRoomAction.bind fun ra =>
              match ra with
              | (st, some resp) =>
                -- an early `return Some(..)`: no broadcast
                some { state := st.getD s, broadcasts := [], response := some resp }
              | (st, none) =>
                -- fell through to the fan-out loop
                let s' := st.getD s
                match s'.rooms.get? roomid with
                | none => none
                | some (room, ws) =>
                  (fanout I s'.clients room ws).map fun bs =>
                    { state := s', broadcasts := bs, response := none }

end ServerState

end Server

/-! ## Wiring the Hanabi engine into the server (`impl GameT for Game`) -/

namespace Hanabi

/-- The `GameT` implementation of the Hanabi `Game` (the `impl` block at
the bottom of `hanabi/src/lib.rs`), for a fixed draw of random choices. -/
def gameI (rng : Rng) : Server.GameI Game GameVariant Move where
  new := fun players variant => Game.new rng players variant
  makeMove := Game.makeMoveByName
  toView := Game.toViewByName

/-- A concrete draw of random choices: identity shuffles, lowest
start-player. Used to instantiate theorems at concrete inputs. -/
def rng0 : Rng :=
  { shufflePlayers := id, genRange := fun _ => 0, shuffleDeck := id }

end Hanabi

/-! ## Room phases -/

namespace Server

/-- The three phases of a room's lifecycle state machine. -/
inductive Phase where
  | waiting | started | ended
  deriving DecidableEq, Repr

def Phase.rank : Phase → Nat
  | .waiting => 0
  | .started => 1
  | .ended => 2

def RoomState.phase {G : Type} : RoomState G → Phase
  | .WaitingForPlayers _ _ => .waiting
  | .Started _ => .started
  | .Ended _ => .ended

/-- The game carried by a `Started` or `Ended` room state. -/
def RoomState.game? {G : Type} : RoomState G → Option G
  | .Started g => g
  | .Ended g => g
  | _ => none

def Response.isError {G S : Type} : Response G S → Bool
  | .Error _ => true
  | _ => false

/-- The phase of room `i` of a server state, when that room exists. -/
def ServerState.roomPhase? {G S : Type} (s : ServerState G S) (i : Nat) : Option Phase :=
  (s.rooms.get? i).map fun rw => rw.1.state.phase

end Server

namespace Server

namespace ServerState

variable {G S M : Type}

/-- The context in which an action can start room `i`: the acting
client exists, is logged in, is watching exactly room `i`, and room `i`
is `WaitingForPlayers`. Returns the acting user, the room and its
bounds. -/
def triggerCtx (s : ServerState G S) (c : ClientId) (i : Nat) :
    Option (UserId × Room G S × Nat × Nat) :=
  match AMap.lookup s.clients c with
  | some cl =>
    match cl.userid, cl.roomid with
    | some u, some rid =>
      if rid = i then
        match s.rooms.get? i with
        | some (room, _) =>
          match room.state with
          | .WaitingForPlayers mn mx => some (u, room, mn, mx)
          | _ => none
        | none => none
      else none
    | _, _ => none
  | none => none

/-- The two ways an action can fire the `Waiting → Started` transition
of room `i`: a `JoinRoom` whose join raises the player count to exactly
`max_players`, or a `StartGame` by a user already in the player list.
`min_players` does not appear: the dispatcher never reads it. -/
def startTrigger (s : ServerState G S) (c : ClientId) (a : Action S M) (i : Nat) : Bool :=
  match a with
  | .JoinRoom =>
    match triggerCtx s c i with
    | some (u, room, _, mx) => !(decide (u ∈ room.players)) && (room.players.length + 1 == mx)
    | none => false
  | .StartGame =>
    match triggerCtx s c i with
    | some (u, room, _, _) => decide (u ∈ room.players)
    | none => false
  | _ => false



variable {G S M : Type}

/-- Conclusion shape of `handleAction_phase_char`. -/
def PhaseChar (s : ServerState G S) (c : ClientId) (a : Action S M)
    (t : ServerState G S) : Prop :=
  s.rooms.length ≤ t.rooms.length ∧
  (∀ i, i < s.rooms.length →
    ∃ rw rw', s.rooms.get? i = some rw ∧ t.rooms.get? i = some rw' ∧
      (rw'.1.state.phase = rw.1.state.phase ∨
       (rw.1.state.phase = .waiting ∧ rw'.1.state.phase = .started ∧
         startTrigger s c a i = true))) ∧
  (∀ i, startTrigger s c a i = true →
    ∃ rw rw', s.rooms.get? i = some rw ∧ t.rooms.get? i = some rw' ∧
      rw.1.state.phase = .waiting ∧ rw'.1.state.phase = .started)

/-- The watcher-set invariant: every client id in any room's watcher
list is a registered client that is logged in and watching exactly that
room. -/
def Inv (s : ServerState G S) : Prop :=
  ∀ i rw, s.rooms.get? i = some rw → ∀ cid, cid ∈ rw.2 →
    ∃ cl, AMap.lookup s.clients cid = some cl ∧ cl.userid.isSome ∧ cl.roomid = some i

/-- Executable form of `Inv`, for concrete evaluation. -/
def InvB (s : ServerState G S) : Bool :=
  (List.range s.rooms.length).all fun i =>
    match s.rooms.get? i with
    | none => true
    | some rw => rw.2.all fun cid =>
      match AMap.lookup s.clients cid with
      | some cl => cl.userid.isSome && (cl.roomid == some i)
      | none => false

end ServerState

end Server

/-! ## Concrete instances used to evaluate the embedding -/

namespace Hanabi

open Server ServerState

/-- The server instantiated with the Hanabi engine and a fixed rng. -/
def I0 : GameI Game GameVariant Move := gameI rng0

/-- A fresh 2-player game dealt by `Game::new` (identity shuffles). -/
def game2p : Game := (Game.new rng0 ["alice", "bob"] .Base).get (by decide)

/-- A server with user `alice` logged in on client `0` and no rooms. -/
def stateNoRooms : ServerState Game GameVariant :=
  { users := [("alice", ⟨[]⟩)]
    rooms := []
    clients := [(0, { userid := some "alice", roomid := none })] }

/-- A server with a single 1-player waiting room watched by its creator. -/
def stateOnePlayerRoom : ServerState Game GameVariant :=
  { users := [("alice", ⟨[]⟩)]
    rooms := [({ roomid := 0, settings := .Base, players := ["alice"],
                 state := .WaitingForPlayers 2 4 }, [0])]
    clients := [(0, { userid := some "alice", roomid := some 0 })] }

/-- A waiting room with `min_players = 3` but only two joined players. -/
def stateBelowMin : ServerState Game GameVariant :=
  { users := [("alice", ⟨[]⟩), ("bob", ⟨[]⟩)]
    rooms := [({ roomid := 0, settings := .Base, players := ["alice", "bob"],
                 state := .WaitingForPlayers 3 4 }, [0, 1])]
    clients := [(0, { userid := some "alice", roomid := some 0 }),
                (1, { userid := some "bob", roomid := some 0 })] }

/-- A legal mid-game position one misplay away from death: one life
left, empty deck, `alice` to move holding an unplayable `Blue 5`. -/
def gameLastLife : Game :=
  { players := ["alice", "bob"]
    startPlayer := 0
    gameState := .NextPlayer 0
    lastPlayer := none
    cardsPerPlayer := 5
    hints := 8
    lives := 1
    variant := .Base
    deck := .Visible []
    hands := [.Visible [⟨⟨.Blue, 5⟩, CardKnowledge.new .Base .Start⟩],
              .Visible [⟨⟨.Red, 1⟩, CardKnowledge.new .Base .Start⟩]]
    discarded := []
    played := Played.new .Base
    moveLog := [] }

/-- A `Started` room running `gameLastLife`, watched by both players. -/
def stateStartedRoom : ServerState Game GameVariant :=
  { users := [("alice", ⟨[]⟩), ("bob", ⟨[]⟩)]
    rooms := [({ roomid := 0, settings := .Base, players := ["alice", "bob"],
                 state := .Started (some gameLastLife) }, [0, 1])]
    clients := [(0, { userid := some "alice", roomid := some 0 }),
                (1, { userid := some "bob", roomid := some 0 })] }

/-- `stateStartedRoom` plus a logged-in spectator `dave` (client 2)
watching the room without being a joined player. -/
def stateWithSpectator : ServerState Game GameVariant :=
  { users := [("alice", ⟨[]⟩), ("bob", ⟨[]⟩), ("dave", ⟨[]⟩)]
    rooms := [({ roomid := 0, settings := .Base, players := ["alice", "bob"],
                 state := .Started (some gameLastLife) }, [0, 1, 2])]
    clients := [(0, { userid := some "alice", roomid := some 0 }),
                (1, { userid := some "bob", roomid := some 0 }),
                (2, { userid := some "dave", roomid := some 0 })] }

/-- The result of the below-minimum `StartGame` on `stateBelowMin`. -/
def rBelowMinStart : HandleResult Game GameVariant :=
  (handleAction I0 stateBelowMin 0 (Action.StartGame : Action GameVariant Move)).get (by decide)

/-- The result of the `min > max` `NewRoom` on `stateNoRooms`. -/
def rNewRoomBadBounds : HandleResult Game GameVariant :=
  (handleAction I0 stateNoRooms 0 (Action.NewRoom 3 2 GameVariant.Base)).get (by decide)

/-- The result of the game-ending `Play 1` on `stateStartedRoom`. -/
def rEndingPlay : HandleResult Game GameVariant :=
  (handleAction I0 stateStartedRoom 0 (Action.MakeMove (Move.Play 1))).get (by decide)

/-- The result of the spectator `dave`'s `Play 1` on `stateWithSpectator`. -/
def rSpectatorMove : HandleResult Game GameVariant :=
  (handleAction I0 stateWithSpectator 2 (Action.MakeMove (Move.Play 1))).get (by decide)

end Hanabi

/-! ## Lemmas about the association-map embedding -/

namespace AMap

theorem lookup_insert_self {κ α : Type} [DecidableEq κ] (l : List (κ × α)) (k : κ) (v : α) :
    lookup (insert l k v) k = some v := by
  induction l with
  | nil => simp [insert, lookup]
  | cons p t ih =>
    by_cases h : k = p.1
    · simp [insert, lookup, h]
    · simp only [insert, h, if_false]
      simp [lookup, h, ih]

theorem lookup_insert_ne {κ α : Type} [DecidableEq κ] (l : List (κ × α)) (k k' : κ) (v : α)
    (h : k' ≠ k) : lookup (insert l k v) k' = lookup l k' := by
  induction l with
  | nil => simp [insert, lookup, h]
  | cons p t ih =>
    by_cases hk : k = p.1
    · subst hk
      simp [insert, lookup, h]
    · simp only [insert, hk, if_false]
      by_cases hk' : k' = p.1
      · simp [lookup, hk']
      · simp [lookup, hk', ih]

theorem lookup_update_self {κ α : Type} [DecidableEq κ] (l : List (κ × α)) (k : κ)
    (f : α → α) (v : α) (h : lookup l k = some v) :
    lookup (update l k f) k = some (f v) := by
  induction l with
  | nil => simp [lookup] at h
  | cons p t ih =>
    by_cases hk : k = p.1
    · simp only [lookup, hk, if_pos rfl] at h
      cases h
      simp [update, hk, lookup]
    · simp only [lookup, hk, if_false] at h
      simp [update, hk, lookup, ih h]

theorem lookup_update_ne {κ α : Type} [DecidableEq κ] (l : List (κ × α)) (k k' : κ)
    (f : α → α) (h : k' ≠ k) : lookup (update l k f) k' = lookup l k' := by
  induction l with
  | nil => simp [update, lookup]
  | cons p t ih =>
    by_cases hk : k = p.1
    · subst hk
      simp [update, lookup, h]
    · simp only [update, hk, if_false]
      by_cases hk' : k' = p.1
      · simp [lookup, hk']
      · simp [lookup, hk', ih]

theorem erase_cons {κ α : Type} [DecidableEq κ] (p : κ × α) (t : List (κ × α)) (k : κ) :
    erase (p :: t) k = if p.1 = k then erase t k else p :: erase t k := by
  by_cases hk : p.1 = k <;> simp [erase, List.filter, hk]

theorem lookup_erase_self {κ α : Type} [DecidableEq κ] (l : List (κ × α)) (k : κ) :
    lookup (erase l k) k = none := by
  induction l with
  | nil => simp [erase, lookup]
  | cons p t ih =>
    rw [erase_cons]
    by_cases hk : p.1 = k
    · simpa [hk] using ih
    · have : k ≠ p.1 := fun h => hk h.symm
      simpa [lookup, hk, this] using ih

theorem lookup_erase_ne {κ α : Type} [DecidableEq κ] (l : List (κ × α)) (k k' : κ)
    (h : k' ≠ k) : lookup (erase l k) k' = lookup l k' := by
  induction l with
  | nil => simp [erase, lookup]
  | cons p t ih =>
    rw [erase_cons]
    by_cases hk : p.1 = k
    · simpa [lookup, hk, h] using ih
    · by_cases hk' : k' = p.1
      · simp [lookup, hk', hk]
      · simpa [lookup, hk, hk'] using ih

end AMap

/-! ## Characterization lemmas for the dispatcher's helper operations -/

namespace Server

/-- Setting a list index to the value it already holds changes nothing. -/
theorem set_of_get? {α : Type} (l : List α) (i : Nat) (a : α) (h : l.get? i = some a) :
    l.set i a = l := by
  induction l generalizing i with
  | nil => simp [List.get?] at h
  | cons x t ih =>
    cases i with
    | zero => simp [List.get?] at h; simp [h]
    | succ n =>
      simp only [List.get?] at h
      simp [List.set, ih n h]

namespace ServerState

variable {G S M : Type}

/-- The first components of a mapped list, looked up by index. -/
theorem get?_map_fst {α β : Type} (l : List (α × β)) (i : Nat) (p : α × β)
    (h : l.get? i = some p) : (l.map Prod.fst).get? i = some p.1 := by
  induction l generalizing i with
  | nil => simp [List.get?] at h
  | cons x t ih =>
    cases i with
    | zero => simp [List.get?] at h ⊢; simp [h]
    | succ n => simp only [List.get?] at h ⊢; exact ih n h

/-- Everything `leave_room` can do: the client record loses its
`roomid`, other clients are untouched, users are untouched, the rooms
themselves (first components) are untouched, and each watcher list at
worst loses the client — which is removed from the list of the room it
was watching. -/
theorem leaveRoom_char {s s' : ServerState G S} {c : ClientId}
    (h : s.leaveRoom c = some s') :
    ∃ cl, AMap.lookup s.clients c = some cl ∧
      AMap.lookup s'.clients c = some { cl with roomid := none } ∧
      (∀ c', c' ≠ c → AMap.lookup s'.clients c' = AMap.lookup s.clients c') ∧
      s'.users = s.users ∧
      s'.rooms.map Prod.fst = s.rooms.map Prod.fst ∧
      (∀ i rw', s'.rooms.get? i = some rw' →
        ∃ rw, s.rooms.get? i = some rw ∧ rw'.1 = rw.1 ∧
          ∀ x, x ∈ rw'.2 → x ∈ rw.2 ∧ ¬(x = c ∧ cl.roomid = some i)) := by
  unfold leaveRoom at h
  split at h
  · exact absurd h (by simp)
  next cl hcl =>
    split at h
    next hroom =>
      cases h
      refine ⟨cl, hcl, ?_, ?_, rfl, rfl, ?_⟩
      · rw [← hroom]
        exact hcl
      · intro c' _
        rfl
      · intro i rw' hget
        exact ⟨rw', hget, rfl, fun x hx => ⟨hx, fun hxc => by simp [hroom] at hxc⟩⟩
    next rid hroom =>
      split at h
      · exact absurd h (by simp)
      next room ws hget0 =>
        cases h
        refine ⟨cl, hcl, ?_, ?_, rfl, ?_, ?_⟩
        · exact AMap.lookup_update_self _ _ _ _ hcl
        · intro c' hc'
          exact AMap.lookup_update_ne _ _ _ _ hc'
        · simp only [List.map_set]
          exact set_of_get? _ _ _ (get?_map_fst _ _ _ hget0)
        · intro i rw' hget
          by_cases hi : i = rid
          · subst hi
            have hlt : i < s.rooms.length := (List.get?_eq_some.mp hget0).1
            rw [List.get?_set_eq_of_lt _ hlt] at hget
            cases hget
            refine ⟨(room, ws), hget0, rfl, ?_⟩
            intro x hx
            simp only [List.mem_filter, decide_eq_true_eq] at hx
            exact ⟨hx.1, fun hxc => hx.2 hxc.1⟩
          · rw [List.get?_set_ne _ _ (fun he => hi he.symm)] at hget
            refine ⟨rw', hget, rfl, ?_⟩
            intro x hx
            refine ⟨hx, fun hxc => ?_⟩
            rw [hroom] at hxc
            exact hi (by injection hxc.2 with h2; exact h2.symm) |>.elim

/-- `leave_room` touches no room entry other than the one the client
was watching. -/
theorem leaveRoom_rooms_other {s s' : ServerState G S} {c : ClientId} {cl : Client}
    (h : s.leaveRoom c = some s') (hcl : AMap.lookup s.clients c = some cl) :
    ∀ i, cl.roomid ≠ some i → s'.rooms.get? i = s.rooms.get? i := by
  unfold leaveRoom at h
  rw [hcl] at h
  simp only at h
  cases hrid : cl.roomid with
  | none =>
    rw [hrid] at h
    injection h with h
    subst h
    intro i _
    rfl
  | some rid =>
    rw [hrid] at h
    simp only at h
    cases hget : s.rooms.get? rid with
    | none => rw [hget] at h; exact absurd h (by simp)
    | some rw0 =>
      rw [hget] at h
      obtain ⟨room, ws⟩ := rw0
      simp only at h
      injection h with h
      subst h
      intro i hne
      have hri : rid ≠ i := fun e => hne (by rw [e])
      show (s.rooms.set rid (room, ws.filter (· ≠ c))).get? i = s.rooms.get? i
      exact List.get?_set_ne _ _ hri

/-- Everything `logout` can do: the client record loses both its user
and its room, other clients are untouched, the rooms are untouched, and
each watcher list at worst loses the client. -/
theorem logout_char {s s' : ServerState G S} {c : ClientId}
    (h : s.logout c = some s') :
    ∃ cl, AMap.lookup s.clients c = some cl ∧
      AMap.lookup s'.clients c = some { userid := none, roomid := none } ∧
      (∀ c', c' ≠ c → AMap.lookup s'.clients c' = AMap.lookup s.clients c') ∧
      s'.rooms.map Prod.fst = s.rooms.map Prod.fst ∧
      (∀ i rw', s'.rooms.get? i = some rw' →
        ∃ rw, s.rooms.get? i = some rw ∧ rw'.1 = rw.1 ∧
          ∀ x, x ∈ rw'.2 → x ∈ rw.2 ∧ ¬(x = c ∧ cl.roomid = some i)) := by
  unfold logout at h
  cases hl : s.leaveRoom c with
  | none => rw [hl] at h; exact absurd h (by simp)
  | some s1 =>
    rw [hl] at h
    simp only [Option.some_bind] at h
    obtain ⟨cl, hcl, hclAfter, hclOther, _, hfst, hws⟩ := leaveRoom_char hl
    split at h
    next hnone =>
      rw [hclAfter] at hnone
      exact absurd hnone (by simp)
    next cl2 hcl2 =>
      rw [hclAfter] at hcl2
      injection hcl2 with hcl2e
      subst hcl2e
      split at h
      next huid2 =>
        cases h
        refine ⟨cl, hcl, ?_, hclOther, hfst, hws⟩
        rw [hclAfter]
        simp only at huid2
        rw [huid2]
      next u huid2 =>
        split at h
        · exact absurd h (by simp)
        next usr husr =>
          cases h
          refine ⟨cl, hcl, ?_, ?_, hfst, hws⟩
          · have := AMap.lookup_update_self _ c
              (fun cc : Client => { cc with userid := none }) _ hclAfter
            simpa using this
          · intro c' hc'
            rw [AMap.lookup_update_ne _ _ _ _ hc']
            exact hclOther c' hc'

/-- Everything `watch_room` can do: the client record now points at
`rid`, other clients are untouched, the rooms are untouched, and every
watcher-list member is an old member not equal to the client — except
the client itself, appended to room `rid`. -/
theorem watchRoom_char {s s' : ServerState G S} {c : ClientId} {rid : Nat}
    (h : s.watchRoom c rid = some s') :
    ∃ cl, AMap.lookup s.clients c = some cl ∧
      AMap.lookup s'.clients c = some { cl with roomid := some rid } ∧
      (∀ c', c' ≠ c → AMap.lookup s'.clients c' = AMap.lookup s.clients c') ∧
      s'.users = s.users ∧
      s'.rooms.map Prod.fst = s.rooms.map Prod.fst ∧
      (∀ i rw', s'.rooms.get? i = some rw' →
        ∃ rw, s.rooms.get? i = some rw ∧ rw'.1 = rw.1 ∧
          ∀ x, x ∈ rw'.2 →
            (x ∈ rw.2 ∧ ¬(x = c ∧ cl.roomid = some i)) ∨ (x = c ∧ i = rid)) := by
  unfold watchRoom at h
  cases hl : s.leaveRoom c with
  | none => rw [hl] at h; exact absurd h (by simp)
  | some s1 =>
    rw [hl] at h
    simp only [Option.some_bind] at h
    obtain ⟨cl, hcl, hclAfter, hclOther, husers, hfst, hws⟩ := leaveRoom_char hl
    rw [hclAfter] at h
    simp only at h
    split at h
    · exact absurd h (by simp)
    next room ws hget0 =>
      cases h
      refine ⟨cl, hcl, ?_, ?_, husers, ?_, ?_⟩
      · have := AMap.lookup_update_self _ c
          (fun cc : Client => { cc with roomid := some rid }) _ hclAfter
        simpa using this
      · intro c' hc'
        rw [AMap.lookup_update_ne _ _ _ _ hc']
        exact hclOther c' hc'
      · simp only [List.map_set]
        rw [hfst]
        have hfst0 : (s.rooms.map Prod.fst).get? rid = some room := by
          rw [← hfst]
          exact get?_map_fst _ _ _ hget0
        exact set_of_get? _ _ _ hfst0
      · intro i rw' hget
        by_cases hi : i = rid
        · subst hi
          have hlt : i < s1.rooms.length := (List.get?_eq_some.mp hget0).1
          rw [List.get?_set_eq_of_lt _ hlt] at hget
          cases hget
          obtain ⟨rw, hrw, hrwfst, hrwmem⟩ := hws i (room, ws) hget0
          refine ⟨rw, hrw, hrwfst, ?_⟩
          intro x hx
          simp only [List.mem_append, List.mem_singleton] at hx
          cases hx with
          | inl hx => exact Or.inl (hrwmem x hx)
          | inr hx => exact Or.inr ⟨hx, rfl⟩
        · rw [List.get?_set_ne _ _ (fun he => hi he.symm)] at hget
          obtain ⟨rw, hrw, hrwfst, hrwmem⟩ := hws i rw' hget
          exact ⟨rw, hrw, hrwfst, fun x hx => Or.inl (hrwmem x hx)⟩

/-- Everything `disconnect` can do: the client record is gone, other
clients are untouched, the rooms are untouched, and each watcher list
at worst loses the client. -/
theorem disconnect_char {s s' : ServerState G S} {c : ClientId}
    (h : s.disconnect c = some s') :
    ∃ cl, AMap.lookup s.clients c = some cl ∧
      AMap.lookup s'.clients c = none ∧
      (∀ c', c' ≠ c → AMap.lookup s'.clients c' = AMap.lookup s.clients c') ∧
      s'.rooms.map Prod.fst = s.rooms.map Prod.fst ∧
      (∀ i rw', s'.rooms.get? i = some rw' →
        ∃ rw, s.rooms.get? i = some rw ∧ rw'.1 = rw.1 ∧
          ∀ x, x ∈ rw'.2 → x ∈ rw.2 ∧ ¬(x = c ∧ cl.roomid = some i)) := by
  unfold disconnect at h
  cases hcl : AMap.lookup s.clients c with
  | none => rw [hcl] at h; exact absurd h (by simp)
  | some cl =>
  rw [hcl] at h
  simp only [Option.some_bind] at h
  have main :
      ∀ t : ServerState G S,
        ((match cl.userid with
          | none => some t
          | some u =>
            match AMap.lookup t.users u with
            | none => none
            | some usr =>
              some { t with users := AMap.update t.users u (fun _ => { usr with sockets := usr.sockets.filter (· ≠ c) }) }) = some s') →
        t.clients = AMap.erase s.clients c →
        t.rooms.map Prod.fst = s.rooms.map Prod.fst →
        (∀ i rw', t.rooms.get? i = some rw' →
          ∃ rw, s.rooms.get? i = some rw ∧ rw'.1 = rw.1 ∧
            ∀ x, x ∈ rw'.2 → x ∈ rw.2 ∧ ¬(x = c ∧ cl.roomid = some i)) →
        AMap.lookup s'.clients c = none ∧
          (∀ c', c' ≠ c → AMap.lookup s'.clients c' = AMap.lookup s.clients c') ∧
          s'.rooms.map Prod.fst = s.rooms.map Prod.fst ∧
          (∀ i rw', s'.rooms.get? i = some rw' →
            ∃ rw, s.rooms.get? i = some rw ∧ rw'.1 = rw.1 ∧
              ∀ x, x ∈ rw'.2 → x ∈ rw.2 ∧ ¬(x = c ∧ cl.roomid = some i)) := by
    intro t hm hc2 hfst hwl
    split at hm
    · injection hm with hm
      subst hm
      refine ⟨?_, ?_, hfst, hwl⟩
      · rw [hc2]; exact AMap.lookup_erase_self _ _
      · intro c' hc'; rw [hc2]; exact AMap.lookup_erase_ne _ _ _ hc'
    · split at hm
      · exact absurd hm (by simp)
      · injection hm with hm
        subst hm
        refine ⟨?_, ?_, hfst, hwl⟩
        · show AMap.lookup t.clients c = none
          rw [hc2]; exact AMap.lookup_erase_self _ _
        · intro c' hc'
          show AMap.lookup t.clients c' = _
          rw [hc2]; exact AMap.lookup_erase_ne _ _ _ hc'
  cases hrs : cl.roomid with
  | none =>
    rw [hrs] at h
    simp only [Option.some_bind] at h
    refine ⟨cl, rfl, main _ h rfl rfl ?_⟩
    intro i rw' hget
    exact ⟨rw', hget, rfl, fun x hx => ⟨hx, fun hxc => by simp [hrs] at hxc⟩⟩
  | some rid =>
    rw [hrs] at h
    simp only [Option.some_bind] at h
    cases hget0 : s.rooms.get? rid with
    | none =>
      rw [hget0] at h
      exact absurd h (by simp)
    | some rw0 =>
      obtain ⟨room, ws⟩ := rw0
      rw [hget0] at h
      simp only [Option.some_bind] at h
      refine ⟨cl, rfl, main _ h rfl ?_ ?_⟩
      · simp only [List.map_set]
        exact set_of_get? _ _ _ (get?_map_fst _ _ _ hget0)
      · intro i rw' hget
        by_cases hi : i = rid
        · subst hi
          have hlt : i < s.rooms.length := (List.get?_eq_some.mp hget0).1
          simp only at hget
          rw [List.get?_set_eq_of_lt _ hlt] at hget
          cases hget
          refine ⟨(room, ws), hget0, rfl, ?_⟩
          intro x hx
          simp only [List.mem_filter, decide_eq_true_eq] at hx
          exact ⟨hx.1, fun hxc => hx.2 hxc.1⟩
        · simp only at hget
          rw [List.get?_set_ne _ _ (fun he => hi he.symm)] at hget
          refine ⟨rw', hget, rfl, fun x hx => ⟨hx, fun hxc => ?_⟩⟩
          rw [hrs] at hxc
          exact hi (by injection hxc.2 with h2; exact h2.symm) |>.elim

/-- `ServerState::start_game` either rejects a non-member with the
fixed error, or applies `Room::start_game` to the watched room. -/
theorem startGame_char {I : GameI G S M} {s : ServerState G S} {u : UserId} {rid : Nat}
    {res : Except String (ServerState G S)} (h : startGame I s u rid = some res) :
    ∃ room ws, s.rooms.get? rid = some (room, ws) ∧
      ((u ∉ room.players ∧ res = .error "User did not join room") ∨
       (u ∈ room.players ∧ ∃ room', Room.startGame I room = some room' ∧
         res = .ok { s with rooms := s.rooms.set rid (room', ws) })) := by
  unfold startGame at h
  cases hget : s.rooms.get? rid with
  | none => rw [hget] at h; exact absurd h (by simp)
  | some rw0 =>
    obtain ⟨room, ws⟩ := rw0
    rw [hget] at h
    simp only at h
    by_cases hmem : u ∈ room.players
    · rw [if_pos hmem] at h
      cases hsg : Room.startGame I room with
      | none => rw [hsg] at h; exact absurd h (by simp)
      | some room' =>
        rw [hsg] at h
        simp only [Option.map_some'] at h
        injection h with h
        exact ⟨room, ws, rfl, Or.inr ⟨hmem, room', hsg, h.symm⟩⟩
    · rw [if_neg hmem] at h
      injection h with h
      exact ⟨room, ws, rfl, Or.inl ⟨hmem, h.symm⟩⟩

/-- `Room::start_game` either performs the `Waiting → Started`
transition (constructing the game), or does nothing. -/
theorem Room.startGame_cases {I : GameI G S M} {room room' : Room G S}
    (h : Room.startGame I room = some room') :
    (room.state.phase = .waiting ∧ ∃ g, I.new room.players room.settings = some g ∧
      room' = { room with state := .Started (some g) }) ∨
    (room.state.phase ≠ .waiting ∧ room' = room) := by
  unfold Room.startGame at h
  split at h
  next mn mx hst =>
    cases hnew : I.new room.players room.settings with
    | none => rw [hnew] at h; exact absurd h (by simp)
    | some g =>
      rw [hnew] at h
      simp only [Option.map_some'] at h
      injection h with h
      exact Or.inl ⟨by rw [hst]; rfl, g, rfl, h.symm⟩
  next hst =>
    injection h with h
    refine Or.inr ⟨?_, h.symm⟩
    intro hph
    cases hs : room.state with
    | WaitingForPlayers mn mx => exact hst mn mx hs
    | Started g => rw [hs] at hph; simp [RoomState.phase] at hph
    | Ended g => rw [hs] at hph; simp [RoomState.phase] at hph

/-- `RoomState::make_move` never changes the phase on an error, and
succeeds only on (and into) a `Started` state. -/
theorem RoomState.makeMove_phase {I : GameI G S M} (rs : RoomState G) (u : UserId) (mov : M) :
    (∀ e rs', RoomState.makeMove I rs u mov = .err e rs' → rs'.phase = rs.phase) ∧
    (∀ rs', RoomState.makeMove I rs u mov = .ok rs' →
      rs.phase = .started ∧ rs'.phase = .started) := by
  cases rs with
  | WaitingForPlayers mn mx =>
    constructor
    · intro e rs' h
      unfold RoomState.makeMove at h
      injection h with h1 h2
      rw [← h2]
    · intro rs' h
      unfold RoomState.makeMove at h
      exact absurd h (by simp)
  | Started g =>
    cases g with
    | none =>
      constructor
      · intro e rs' h; unfold RoomState.makeMove at h; exact absurd h (by simp)
      · intro rs' h; unfold RoomState.makeMove at h; exact absurd h (by simp)
    | some g =>
      constructor
      · intro e rs' h
        unfold RoomState.makeMove at h
        simp only at h
        cases hmm : I.makeMove g u mov with
        | panic => rw [hmm] at h; exact absurd h (by simp)
        | err e' g' =>
          rw [hmm] at h
          injection h with h1 h2
          rw [← h2]
          rfl
        | ok g' => rw [hmm] at h; exact absurd h (by simp)
      
      · intro rs' h
        unfold RoomState.makeMove at h
        simp only at h
        cases hmm : I.makeMove g u mov with
        | panic => rw [hmm] at h; exact absurd h (by simp)
        | err e' g' => rw [hmm] at h; exact absurd h (by simp)
        | ok g' =>
          rw [hmm] at h
          injection h with h1
          rw [← h1]
          exact ⟨rfl, rfl⟩
  | Ended g =>
    constructor
    · intro e rs' h
      unfold RoomState.makeMove at h
      injection h with h1 h2
      rw [← h2]
    · intro rs' h
      unfold RoomState.makeMove at h
      exact absurd h (by simp)

/-- On an `Ended` room, `RoomState::make_move` always fails with the
fixed error and hands the state back unchanged. -/
theorem RoomState.makeMove_ended {I : GameI G S M} (rs : RoomState G) (u : UserId) (mov : M)
    (h : rs.phase = .ended) :
    ∃ g, rs = .Ended g ∧ RoomState.makeMove I rs u mov = .err "Game already finished" (.Ended g) := by
  cases rs with
  | WaitingForPlayers mn mx => simp [RoomState.phase] at h
  | Started g => simp [RoomState.phase] at h
  | Ended g => exact ⟨g, rfl, rfl⟩

/-- The fan-out loop cannot fail when every watcher is a known,
logged-in client and the game's view function is total on this room. -/
theorem fanout_isSome {I : GameI G S M} {clients : List (ClientId × Client)}
    {room : Room G S} {ws : List ClientId}
    (hws : ∀ wc, wc ∈ ws → ∃ cl, AMap.lookup clients wc = some cl ∧ cl.userid.isSome)
    (hview : ∀ u, (Room.toView I room u).isSome) :
    (fanout I clients room ws).isSome := by
  induction ws with
  | nil => simp [fanout]
  | cons wc rest ih =>
    obtain ⟨cl, hcl, huid⟩ := hws wc (by simp)
    obtain ⟨u, hu⟩ := Option.isSome_iff_exists.mp huid
    obtain ⟨rv, hrv⟩ := Option.isSome_iff_exists.mp (hview u)
    have ihr := ih (fun x hx => hws x (by simp [hx]))
    obtain ⟨tail, htail⟩ := Option.isSome_iff_exists.mp ihr
    unfold fanout
    simp [hcl, hu, hrv, htail]

theorem rooms_fst_parts {s t : ServerState G S}
    (hfst : t.rooms.map Prod.fst = s.rooms.map Prod.fst) :
    t.rooms.length = s.rooms.length ∧
    ∀ i, i < s.rooms.length →
      ∃ rw rw', s.rooms.get? i = some rw ∧ t.rooms.get? i = some rw' ∧ rw'.1 = rw.1 := by
  have hlen : t.rooms.length = s.rooms.length := by
    have := congrArg List.length hfst
    simpa using this
  refine ⟨hlen, ?_⟩
  intro i hi
  have hit : i < t.rooms.length := by rw [hlen]; exact hi
  have hs : s.rooms.get? i = some (s.rooms.get ⟨i, hi⟩) := List.get?_eq_get hi
  have ht : t.rooms.get? i = some (t.rooms.get ⟨i, hit⟩) := List.get?_eq_get hit
  refine ⟨_, _, hs, ht, ?_⟩
  have h1 := get?_map_fst s.rooms i _ hs
  have h2 := get?_map_fst t.rooms i _ ht
  rw [hfst, h1] at h2
  injection h2 with h2
  exact h2.symm

/-- A state with untouched rooms satisfies `PhaseChar` whenever the
trigger is everywhere false. -/
theorem phaseChar_of_fst {s t : ServerState G S} {c : ClientId} {a : Action S M}
    (hfst : t.rooms.map Prod.fst = s.rooms.map Prod.fst)
    (htrig : ∀ i, startTrigger s c a i = false) :
    PhaseChar s c a t := by
  obtain ⟨hlen, hparts⟩ := rooms_fst_parts hfst
  refine ⟨le_of_eq hlen.symm, ?_, ?_⟩
  · intro i hi
    obtain ⟨rw, rw', h1, h2, h3⟩ := hparts i hi
    exact ⟨rw, rw', h1, h2, Or.inl (by rw [h3])⟩
  · intro i htr
    rw [htrig i] at htr
    cases htr


/-- A state whose rooms are the old ones plus one appended room also
satisfies `PhaseChar` when the trigger is everywhere false. -/
theorem phaseChar_of_fst_append {s t : ServerState G S} {c : ClientId} {a : Action S M}
    {extra : Room G S}
    (hfst : t.rooms.map Prod.fst = s.rooms.map Prod.fst ++ [extra])
    (htrig : ∀ i, startTrigger s c a i = false) :
    PhaseChar s c a t := by
  have hlen : t.rooms.length = s.rooms.length + 1 := by
    have := congrArg List.length hfst
    simpa using this
  refine ⟨by omega, ?_, ?_⟩
  · intro i hi
    have hit : i < t.rooms.length := by omega
    have hs : s.rooms.get? i = some (s.rooms.get ⟨i, hi⟩) := List.get?_eq_get hi
    have ht : t.rooms.get? i = some (t.rooms.get ⟨i, hit⟩) := List.get?_eq_get hit
    refine ⟨_, _, hs, ht, Or.inl ?_⟩
    have h1 := get?_map_fst s.rooms i _ hs
    have h2 := get?_map_fst t.rooms i _ ht
    rw [hfst] at h2
    rw [List.get?_append (by simpa using hi), h1] at h2
    injection h2 with h2
    rw [h2]
  · intro i htr
    rw [htrig i] at htr
    cases htr

/-- How one `handle_action` call relates the phases of the pre- and
post-state rooms: rooms are only appended, an existing room keeps its
phase except for the `Waiting → Started` transition, and that
transition happens exactly when `startTrigger` fires. -/
theorem handleAction_phase_char {I : GameI G S M} {s : ServerState G S} {c : ClientId}
    {a : Action S M} {r : HandleResult G S}
    (h : ServerState.handleAction I s c a = some r) :
    PhaseChar s c a r.state := by
  cases a with
  | Login u =>
    unfold handleAction at h
    cases hl : s.logout c with
    | none => rw [hl] at h; exact absurd h (by simp)
    | some s1 =>
      rw [hl] at h
      simp only [Option.some_bind] at h
      obtain ⟨cl, hcl, hclAfter, hclOther, hfst, hws⟩ := logout_char hl
      rw [hclAfter] at h
      simp only at h
      injection h with h
      subst h
      exact phaseChar_of_fst hfst (fun i => rfl)
  | Logout =>
    unfold handleAction at h
    cases hl : s.logout c with
    | none => rw [hl] at h; exact absurd h (by simp)
    | some s1 =>
      rw [hl] at h
      simp only [Option.map_some'] at h
      obtain ⟨cl, hcl, hclAfter, hclOther, hfst, hws⟩ := logout_char hl
      injection h with h
      subst h
      exact phaseChar_of_fst hfst (fun i => rfl)
  | LeaveRoom =>
    unfold handleAction at h
    cases hl : s.leaveRoom c with
    | none => rw [hl] at h; exact absurd h (by simp)
    | some s1 =>
      rw [hl] at h
      simp only [Option.map_some'] at h
      obtain ⟨cl, hcl, hclAfter, hclOther, husers, hfst, hws⟩ := leaveRoom_char hl
      injection h with h
      subst h
      exact phaseChar_of_fst hfst (fun i => rfl)
  | WatchRoom rid =>
    unfold handleAction at h
    simp only at h
    cases hcl : AMap.lookup s.clients c with
    | none => rw [hcl] at h; exact absurd h (by simp)
    | some cl =>
      rw [hcl] at h
      simp only at h
      cases huid : cl.userid with
      | none =>
        rw [huid] at h
        simp only at h
        injection h with h
        subst h
        exact phaseChar_of_fst rfl (fun i => rfl)
      | some u =>
        rw [huid] at h
        simp only at h
        cases hw : s.watchRoom c rid with
        | none => rw [hw] at h; exact absurd h (by simp)
        | some s1 =>
          rw [hw] at h
          simp only [Option.some_bind] at h
          obtain ⟨cl2, hcl2, hclAfter, hclOther, husers, hfst, hws⟩ := watchRoom_char hw
          cases hget : s1.rooms.get? rid with
          | none => rw [hget] at h; exact absurd h (by simp)
          | some rw0 =>
            rw [hget] at h
            obtain ⟨room, ws⟩ := rw0
            simp only at h
            cases hv : Room.toView I room u with
            | none => rw [hv] at h; exact absurd h (by simp)
            | some rv =>
              rw [hv] at h
              simp only [Option.map_some'] at h
              injection h with h
              subst h
              exact phaseChar_of_fst hfst (fun i => rfl)
  | NewRoom minP maxP settings =>
    unfold handleAction at h
    simp only at h
    cases hcl : AMap.lookup s.clients c with
    | none => rw [hcl] at h; exact absurd h (by simp)
    | some cl =>
      rw [hcl] at h
      simp only at h
      cases huid : cl.userid with
      | none =>
        rw [huid] at h
        simp only at h
        injection h with h
        subst h
        exact phaseChar_of_fst rfl (fun i => rfl)
      | some u =>
        rw [huid] at h
        simp only at h
        have main : ∀ s1 : ServerState G S,
            ((s1.leaveRoom c).bind fun s2 =>
              match AMap.lookup s2.clients c with
              | none => none
              | some _ =>
                match s2.rooms.get? s.rooms.length with
                | none => none
                | some (room, _) =>
                  (Room.toView I room u).map fun rv =>
                    ({ state := { s2 with clients := AMap.update s2.clients c fun cc => { cc with roomid := some s.rooms.length } }, broadcasts := [], response := some (.RoomResp rv) } : HandleResult G S)) = some r →
            s1.rooms.map Prod.fst = s.rooms.map Prod.fst ++
              [({ roomid := s.rooms.length, settings := settings, players := [u],
                  state := RoomState.WaitingForPlayers minP maxP } : Room G S)] →
            PhaseChar s c (Action.NewRoom minP maxP settings : Action S M) r.state := by
          intro s1 hpath hrooms1
          cases hl : s1.leaveRoom c with
          | none => rw [hl] at hpath; exact absurd hpath (by simp)
          | some s2 =>
            rw [hl] at hpath
            simp only [Option.some_bind] at hpath
            obtain ⟨cl2, hcl2, hclAfter, hclOther, husers, hfst, hws⟩ := leaveRoom_char hl
            rw [hclAfter] at hpath
            simp only at hpath
            cases hget : s2.rooms.get? s.rooms.length with
            | none => rw [hget] at hpath; exact absurd hpath (by simp)
            | some rw0 =>
              rw [hget] at hpath
              obtain ⟨room, ws2⟩ := rw0
              simp only at hpath
              cases hv : Room.toView I room u with
              | none => rw [hv] at hpath; exact absurd hpath (by simp)
              | some rv =>
                rw [hv] at hpath
                simp only [Option.map_some'] at hpath
                injection hpath with hpath
                subst hpath
                exact phaseChar_of_fst_append (hfst.trans hrooms1) (fun i => rfl)
        exact main _ h (by simp)
  | StartGame =>
    unfold handleAction at h
    simp only at h
    cases hcl : AMap.lookup s.clients c with
    | none => rw [hcl] at h; exact absurd h (by simp)
    | some cl =>
      rw [hcl] at h
      simp only at h
      cases huid : cl.userid with
      | none =>
        rw [huid] at h
        simp only at h
        injection h with h
        subst h
        refine phaseChar_of_fst rfl ?_
        intro i
        simp [startTrigger, triggerCtx, hcl, huid]
      | some u =>
        rw [huid] at h
        simp only at h
        cases hrid : cl.roomid with
        | none =>
          rw [hrid] at h
          simp only at h
          injection h with h
          subst h
          refine phaseChar_of_fst rfl ?_
          intro i
          simp [startTrigger, triggerCtx, hcl, huid, hrid]
        | some rid =>
          rw [hrid] at h
          simp only at h
          cases hsg : startGame I s u rid with
          | none => rw [hsg] at h; exact absurd h (by simp)
          | some res =>
            rw [hsg] at h
            obtain ⟨room, ws, hget, hchar⟩ := startGame_char hsg
            cases res with
            | error e =>
              simp only [Option.some_bind] at h
              injection h with h
              subst h
              rcases hchar with ⟨hmem, _⟩ | ⟨_, _, _, habs⟩
              · refine phaseChar_of_fst rfl ?_
                intro i
                simp only [startTrigger, triggerCtx, hcl, huid, hrid]
                by_cases hi : rid = i
                · subst hi
                  rw [if_pos rfl, hget]
                  cases hst : room.state <;> simp [hst, hmem]
                · rw [if_neg hi]
              · cases habs
            | ok s1 =>
              rcases hchar with ⟨_, habs⟩ | ⟨hmem, room', hsg2, hres⟩
              · cases habs
              · injection hres with hres
                subst hres
                simp only [Option.some_bind, Option.getD_some] at h
                cases hget1 : (({ s with rooms := s.rooms.set rid (room', ws) } : ServerState G S)).rooms.get? rid with
                | none => rw [hget1] at h; exact absurd h (by simp)
                | some rw1 =>
                  rw [hget1] at h
                  obtain ⟨room2, ws2⟩ := rw1
                  simp only at h
                  cases hfo : fanout I s.clients room2 ws2 with
                  | none => rw [hfo] at h; exact absurd h (by simp)
                  | some bs =>
                    rw [hfo] at h
                    simp only [Option.map_some'] at h
                    injection h with h
                    subst h
                    -- now r.state rooms = s.rooms.set rid (room', ws)
                    have hlt : rid < s.rooms.length := (List.get?_eq_some.mp hget).1
                    rcases Room.startGame_cases hsg2 with ⟨hwait, g, hnew, hroom'⟩ | ⟨hnw, hroom'⟩
                    · -- the Waiting → Started transition at rid
                      have htrig : startTrigger s c (Action.StartGame : Action S M) rid = true := by
                        simp only [startTrigger, triggerCtx, hcl, huid, hrid, if_pos rfl, hget]
                        cases hst : room.state with
                        | WaitingForPlayers mn mx => simp [hmem]
                        | Started g0 => rw [hst] at hwait; simp [RoomState.phase] at hwait
                        | Ended g0 => rw [hst] at hwait; simp [RoomState.phase] at hwait
                      refine ⟨by simp, ?_, ?_⟩
                      · intro i hi
                        by_cases hi2 : i = rid
                        · subst hi2
                          refine ⟨(room, ws), (room', ws), hget, ?_, Or.inr ⟨hwait, ?_, htrig⟩⟩
                          · simpa using List.get?_set_eq_of_lt (room', ws) hi
                          · rw [hroom']
                            rfl
                        · have : (s.rooms.set rid (room', ws)).get? i = s.rooms.get? i :=
                            List.get?_set_ne _ _ (fun he => hi2 he.symm)
                          have hsome : s.rooms.get? i = some (s.rooms.get ⟨i, hi⟩) := List.get?_eq_get hi
                          exact ⟨_, _, hsome, this.trans hsome, Or.inl rfl⟩
                      · intro i htr
                        -- the trigger only fires at rid
                        by_cases hi2 : rid = i
                        · subst hi2
                          refine ⟨(room, ws), (room', ws), hget, ?_, hwait, ?_⟩
                          · simpa using List.get?_set_eq_of_lt (room', ws) hlt
                          · rw [hroom']
                            rfl
                        · exfalso
                          simp only [startTrigger, triggerCtx, hcl, huid, hrid] at htr
                          rw [if_neg hi2] at htr
                          simp at htr
                    · -- the room was not waiting: nothing changes
                      have hsetid : s.rooms.set rid (room', ws) = s.rooms := by
                        rw [hroom']
                        exact set_of_get? _ _ _ hget
                      have htrigF : ∀ i, startTrigger s c (Action.StartGame : Action S M) i = false := by
                        intro i
                        simp only [startTrigger, triggerCtx, hcl, huid, hrid]
                        by_cases hi2 : rid = i
                        · subst hi2
                          rw [if_pos rfl, hget]
                          cases hst : room.state with
                          | WaitingForPlayers mn mx =>
                            rw [hst] at hnw
                            simp [RoomState.phase] at hnw
                          | Started g0 => simp [hst]
                          | Ended g0 => simp [hst]
                        · rw [if_neg hi2]
                      exact phaseChar_of_fst (by rw [hsetid]) htrigF
  | JoinRoom =>
    unfold handleAction at h
    simp only at h
    cases hcl : AMap.lookup s.clients c with
    | none => rw [hcl] at h; exact absurd h (by simp)
    | some cl =>
      rw [hcl] at h
      simp only at h
      cases huid : cl.userid with
      | none =>
        rw [huid] at h
        simp only at h
        injection h with h
        subst h
        refine phaseChar_of_fst rfl ?_
        intro i
        simp [startTrigger, triggerCtx, hcl, huid]
      | some u =>
        rw [huid] at h
        simp only at h
        cases hrid : cl.roomid with
        | none =>
          rw [hrid] at h
          simp only at h
          injection h with h
          subst h
          refine phaseChar_of_fst rfl ?_
          intro i
          simp [startTrigger, triggerCtx, hcl, huid, hrid]
        | some rid =>
          rw [hrid] at h
          simp only at h
          cases hget : s.rooms.get? rid with
          | none => rw [hget] at h; exact absurd h (by simp)
          | some rw0 =>
            obtain ⟨room, ws⟩ := rw0
            rw [hget] at h
            simp only at h
            have htrigNE : ∀ i, rid ≠ i → startTrigger s c (Action.JoinRoom : Action S M) i = false := by
              intro i hi
              simp only [startTrigger, triggerCtx, hcl, huid, hrid]
              rw [if_neg hi]
            cases hst : room.state with
            | Started g0 =>
              rw [hst] at h
              simp only [Option.some_bind, Option.getD_none] at h
              injection h with h
              subst h
              refine phaseChar_of_fst rfl ?_
              intro i
              by_cases hi : rid = i
              · subst hi
                simp only [startTrigger, triggerCtx, hcl, huid, hrid, if_pos rfl, hget]
                simp [hst]
              · exact htrigNE i hi
            | Ended g0 =>
              rw [hst] at h
              simp only [Option.some_bind, Option.getD_none] at h
              injection h with h
              subst h
              refine phaseChar_of_fst rfl ?_
              intro i
              by_cases hi : rid = i
              · subst hi
                simp only [startTrigger, triggerCtx, hcl, huid, hrid, if_pos rfl, hget]
                simp [hst]
              · exact htrigNE i hi
            | WaitingForPlayers mn mx =>
              rw [hst] at h
              simp only at h
              have hgetE : s.rooms[rid]? = some (room, ws) := by
                rw [← List.get?_eq_getElem?]
                exact hget
              have hctx : triggerCtx s c rid = some (u, room, mn, mx) := by
                simp [triggerCtx, hcl, huid, hrid, hgetE, hst]
              by_cases hmem : u ∈ room.players
              · rw [if_pos hmem] at h
                simp only [Option.some_bind, Option.getD_none] at h
                injection h with h
                subst h
                refine phaseChar_of_fst rfl ?_
                intro i
                by_cases hi : rid = i
                · subst hi
                  simp only [startTrigger, hctx]
                  simp [hmem]
                · exact htrigNE i hi
              · rw [if_neg hmem] at h
                by_cases hfull : room.players.length = mx
                · rw [if_pos hfull] at h
                  simp only [Option.some_bind, Option.getD_none] at h
                  injection h with h
                  subst h
                  refine phaseChar_of_fst rfl ?_
                  intro i
                  by_cases hi : rid = i
                  · subst hi
                    simp only [startTrigger, hctx]
                    simp [hfull]
                  · exact htrigNE i hi
                · rw [if_neg hfull] at h
                  have hlt : rid < s.rooms.length := (List.get?_eq_some.mp hget).1
                  by_cases hmax : (room.players ++ [u]).length = mx
                  · rw [if_pos hmax] at h
                    have hmax' : room.players.length + 1 = mx := by simpa using hmax
                    have htrigR : startTrigger s c (Action.JoinRoom : Action S M) rid = true := by
                      simp only [startTrigger, hctx]
                      simp [hmem, hmax']
                    cases hsg : startGame I
                        ({ s with rooms := s.rooms.set rid (({ roomid := room.roomid, settings := room.settings, players := room.players ++ [u], state := RoomState.WaitingForPlayers mn mx } : Room G S), ws) } : ServerState G S) u rid with
                    | none => rw [hsg] at h; exact absurd h (by simp)
                    | some res =>
                      rw [hsg] at h
                      obtain ⟨roomA, wsA, hgetA, hcharA⟩ := startGame_char hsg
                      have hpairs := hgetA.symm.trans
                        (List.get?_set_eq_of_lt (({ roomid := room.roomid, settings := room.settings, players := room.players ++ [u], state := RoomState.WaitingForPlayers mn mx } : Room G S), ws) hlt)
                      injection hpairs with hpairs
                      obtain ⟨hA1, hA2⟩ := Prod.mk.injEq .. |>.mp hpairs
                      rcases hcharA with ⟨hmemA, _⟩ | ⟨hmemA, roomB, hsgB, hres⟩
                      · rw [hA1] at hmemA
                        exact absurd (by simp) hmemA
                      · rw [hA1] at hsgB
                        rw [hA2] at hres
                        subst hres
                        simp only [Option.some_bind, Option.getD_some] at h
                        rcases Room.startGame_cases hsgB with ⟨_, g, hnewB, hroomB⟩ | ⟨hnwB, _⟩
                        · subst hroomB
                          rw [List.set_set] at h
                          have hltB : rid < (s.rooms.set rid
                              (({ roomid := room.roomid, settings := room.settings, players := room.players ++ [u], state := RoomState.Started (some g) } : Room G S), ws)).length := by
                            simpa using hlt
                          rw [show (s.rooms.set rid
                              (({ roomid := room.roomid, settings := room.settings, players := room.players ++ [u], state := RoomState.Started (some g) } : Room G S), ws)).get? rid = _ from List.get?_set_eq_of_lt _ hlt] at h
                          simp only at h
                          cases hfo : fanout I s.clients
                              ({ roomid := room.roomid, settings := room.settings, players := room.players ++ [u], state := RoomState.Started (some g) } : Room G S) ws with
                          | none => rw [hfo] at h; exact absurd h (by simp)
                          | some bs =>
                            rw [hfo] at h
                            simp only [Option.map_some'] at h
                            injection h with h
                            subst h
                            refine ⟨by simp, ?_, ?_⟩
                            · intro i hi
                              by_cases hi2 : rid = i
                              · subst hi2
                                refine ⟨(room, ws), (({ roomid := room.roomid, settings := room.settings, players := room.players ++ [u], state := RoomState.Started (some g) } : Room G S), ws), hget, List.get?_set_eq_of_lt _ hi, Or.inr ⟨by rw [hst]; rfl, rfl, htrigR⟩⟩
                              · have hsome : s.rooms.get? i = some (s.rooms.get ⟨i, hi⟩) := List.get?_eq_get hi
                                exact ⟨_, _, hsome, (List.get?_set_ne _ _ hi2).trans hsome, Or.inl rfl⟩
                            · intro i htr
                              by_cases hi2 : rid = i
                              · subst hi2
                                exact ⟨(room, ws), (({ roomid := room.roomid, settings := room.settings, players := room.players ++ [u], state := RoomState.Started (some g) } : Room G S), ws), hget, List.get?_set_eq_of_lt _ hlt, by rw [hst]; rfl, rfl⟩
                              · rw [htrigNE i hi2] at htr
                                cases htr
                        · exact (hnwB rfl).elim
                  · rw [if_neg hmax] at h
                    simp only [Option.some_bind, Option.getD_some] at h
                    rw [show (s.rooms.set rid
                        (({ roomid := room.roomid, settings := room.settings, players := room.players ++ [u], state := RoomState.WaitingForPlayers mn mx } : Room G S), ws)).get? rid = _ from List.get?_set_eq_of_lt _ hlt] at h
                    simp only at h
                    cases hfo : fanout I s.clients
                        ({ roomid := room.roomid, settings := room.settings, players := room.players ++ [u], state := RoomState.WaitingForPlayers mn mx } : Room G S) ws with
                    | none => rw [hfo] at h; exact absurd h (by simp)
                    | some bs =>
                      rw [hfo] at h
                      simp only [Option.map_some'] at h
                      injection h with h
                      subst h
                      have hmaxne : room.players.length + 1 ≠ mx := by simpa using hmax
                      have htrigF : ∀ i, startTrigger s c (Action.JoinRoom : Action S M) i = false := by
                        intro i
                        by_cases hi2 : rid = i
                        · subst hi2
                          simp only [startTrigger, hctx]
                          simp [hmem, hmaxne]
                        · exact htrigNE i hi2
                      refine ⟨by simp, ?_, ?_⟩
                      · intro i hi
                        by_cases hi2 : rid = i
                        · subst hi2
                          refine ⟨(room, ws), (({ roomid := room.roomid, settings := room.settings, players := room.players ++ [u], state := RoomState.WaitingForPlayers mn mx } : Room G S), ws), hget, List.get?_set_eq_of_lt _ hi, Or.inl (by rw [hst])⟩
                        · have hsome : s.rooms.get? i = some (s.rooms.get ⟨i, hi⟩) := List.get?_eq_get hi
                          exact ⟨_, _, hsome, (List.get?_set_ne _ _ hi2).trans hsome, Or.inl rfl⟩
                      · intro i htr
                        rw [htrigF i] at htr
                        cases htr
  | MakeMove mov =>
    unfold handleAction at h
    simp only at h
    cases hcl : AMap.lookup s.clients c with
    | none => rw [hcl] at h; exact absurd h (by simp)
    | some cl =>
      rw [hcl] at h
      simp only at h
      cases huid : cl.userid with
      | none =>
        rw [huid] at h
        simp only at h
        injection h with h
        subst h
        exact phaseChar_of_fst rfl (fun i => rfl)
      | some u =>
        rw [huid] at h
        simp only at h
        cases hrid : cl.roomid with
        | none =>
          rw [hrid] at h
          simp only at h
          injection h with h
          subst h
          exact phaseChar_of_fst rfl (fun i => rfl)
        | some rid =>
          rw [hrid] at h
          simp only at h
          cases hget : s.rooms.get? rid with
          | none => rw [hget] at h; exact absurd h (by simp)
          | some rw0 =>
            obtain ⟨room, ws⟩ := rw0
            rw [hget] at h
            simp only at h
            have hlt : rid < s.rooms.length := (List.get?_eq_some.mp hget).1
            by_cases hmem : u ∈ room.players
            · rw [if_pos hmem] at h
              cases hmm : RoomState.makeMove I room.state u mov with
              | panic => rw [hmm] at h; exact absurd h (by simp)
              | err e rs1 =>
                rw [hmm] at h
                simp only [Option.some_bind, Option.getD_some] at h
                injection h with h
                subst h
                have hph := (RoomState.makeMove_phase room.state u mov).1 e rs1 hmm
                refine ⟨by simp, ?_, fun i htr => absurd htr (by simp [startTrigger])⟩
                intro i hi
                by_cases hi2 : rid = i
                · subst hi2
                  refine ⟨(room, ws), (({ roomid := room.roomid, settings := room.settings, players := room.players, state := rs1 } : Room G S), ws), hget, List.get?_set_eq_of_lt _ hi, Or.inl hph⟩
                · have hsome : s.rooms.get? i = some (s.rooms.get ⟨i, hi⟩) := List.get?_eq_get hi
                  exact ⟨_, _, hsome, (List.get?_set_ne _ _ hi2).trans hsome, Or.inl rfl⟩
              | ok rs1 =>
                rw [hmm] at h
                simp only [Option.some_bind, Option.getD_some] at h
                rw [show (s.rooms.set rid
                    (({ roomid := room.roomid, settings := room.settings, players := room.players, state := rs1 } : Room G S), ws)).get? rid = _ from List.get?_set_eq_of_lt _ hlt] at h
                simp only at h
                cases hfo : fanout I s.clients
                    ({ roomid := room.roomid, settings := room.settings, players := room.players, state := rs1 } : Room G S) ws with
                | none => rw [hfo] at h; exact absurd h (by simp)
                | some bs =>
                  rw [hfo] at h
                  simp only [Option.map_some'] at h
                  injection h with h
                  subst h
                  obtain ⟨hph1, hph2⟩ := (RoomState.makeMove_phase room.state u mov).2 rs1 hmm
                  refine ⟨by simp, ?_, fun i htr => absurd htr (by simp [startTrigger])⟩
                  intro i hi
                  by_cases hi2 : rid = i
                  · subst hi2
                    refine ⟨(room, ws), (({ roomid := room.roomid, settings := room.settings, players := room.players, state := rs1 } : Room G S), ws), hget, List.get?_set_eq_of_lt _ hi, Or.inl ?_⟩
                    rw [hph1]
                    exact hph2
                  · have hsome : s.rooms.get? i = some (s.rooms.get ⟨i, hi⟩) := List.get?_eq_get hi
                    exact ⟨_, _, hsome, (List.get?_set_ne _ _ hi2).trans hsome, Or.inl rfl⟩
            · rw [if_neg hmem] at h
              simp only [Option.some_bind, Option.getD_none] at h
              injection h with h
              subst h
              exact phaseChar_of_fst rfl (fun i => rfl)





variable {G S M : Type}

theorem invB_iff (s : ServerState G S) : InvB s = true ↔ Inv s := by
  unfold InvB Inv
  rw [List.all_eq_true]
  constructor
  · intro hb i rw hget cid hmem
    have hi : i < s.rooms.length := (List.get?_eq_some.mp hget).1
    have := hb i (by simpa using List.mem_range.mpr hi)
    rw [hget] at this
    simp only [List.all_eq_true] at this
    have := this cid (by simpa using hmem)
    cases hcl : AMap.lookup s.clients cid with
    | none => rw [hcl] at this; cases this
    | some cl =>
      rw [hcl] at this
      simp only [Bool.and_eq_true, beq_iff_eq] at this
      exact ⟨cl, rfl, this.1, this.2⟩
  · intro hp i hi
    simp only [List.mem_range] at hi
    cases hget : s.rooms.get? i with
    | none => simp
    | some rw =>
      simp only [List.all_eq_true]
      intro cid hmem
      obtain ⟨cl, hcl, hu, hr⟩ := hp i rw hget cid (by simpa using hmem)
      rw [hcl]
      simp [hu, hr]

/-- Replacing a room while keeping its watcher list preserves `Inv`. -/
theorem inv_set_room {s : ServerState G S} {rid : Nat} {room : Room G S}
    {ws : List ClientId} {room' : Room G S}
    (hget : s.rooms.get? rid = some (room, ws)) (hinv : Inv s) :
    Inv { s with rooms := s.rooms.set rid (room', ws) } := by
  intro i rw' hg cid hmem
  by_cases hi : rid = i
  · subst hi
    have hlt : rid < s.rooms.length := (List.get?_eq_some.mp hget).1
    have : (s.rooms.set rid (room', ws)).get? rid = some (room', ws) :=
      List.get?_set_eq_of_lt _ hlt
    rw [show ({ s with rooms := s.rooms.set rid (room', ws) } : ServerState G S).rooms.get? rid = (s.rooms.set rid (room', ws)).get? rid from rfl, this] at hg
    injection hg with hg
    subst hg
    exact hinv rid (room, ws) hget cid hmem
  · rw [show ({ s with rooms := s.rooms.set rid (room', ws) } : ServerState G S).rooms.get? i = (s.rooms.set rid (room', ws)).get? i from rfl, List.get?_set_ne _ _ hi] at hg
    exact hinv i rw' hg cid hmem

/-- `connect` preserves the invariant for a fresh client id. -/
theorem connect_inv {s : ServerState G S} {cid : ClientId}
    (hfresh : AMap.lookup s.clients cid = none) (hinv : Inv s) :
    Inv (s.connect cid).1 := by
  intro i rw hget cid' hmem
  obtain ⟨cl, hcl, hu, hr⟩ := hinv i rw hget cid' hmem
  by_cases hc : cid' = cid
  · subst hc
    rw [hfresh] at hcl
    cases hcl
  · refine ⟨cl, ?_, hu, hr⟩
    exact (AMap.lookup_insert_ne _ _ _ _ hc).trans hcl

/-- `disconnect` preserves the invariant. -/
theorem disconnect_inv {s s' : ServerState G S} {c : ClientId}
    (h : s.disconnect c = some s') (hinv : Inv s) : Inv s' := by
  obtain ⟨cl, hcl, hclGone, hclOther, hfst, hws⟩ := disconnect_char h
  intro i rw' hget cid hmem
  obtain ⟨rw, hrw, _, hmem2⟩ := hws i rw' hget
  obtain ⟨hcidmem, hnot⟩ := hmem2 cid hmem
  obtain ⟨cl0, hcl0, hu0, hr0⟩ := hinv i rw hrw cid hcidmem
  by_cases hc : cid = c
  · subst hc
    rw [hcl] at hcl0
    injection hcl0 with hcl0
    subst hcl0
    exact absurd ⟨rfl, hr0⟩ hnot
  · exact ⟨cl0, (hclOther cid hc).trans hcl0, hu0, hr0⟩

/-- `handle_action` preserves the watcher-set invariant. -/
theorem handleAction_inv {I : GameI G S M} {s : ServerState G S} {c : ClientId}
    {a : Action S M} {r : HandleResult G S}
    (h : ServerState.handleAction I s c a = some r) (hinv : Inv s) : Inv r.state := by
  -- removing a linked client from the state produced by
  -- `leave_room`-style operations
  have ofChar : ∀ (t : ServerState G S) (cl : Client),
      AMap.lookup s.clients c = some cl →
      (∀ c', c' ≠ c → AMap.lookup t.clients c' = AMap.lookup s.clients c') →
      (∀ i rw', t.rooms.get? i = some rw' →
        ∃ rw, s.rooms.get? i = some rw ∧ rw'.1 = rw.1 ∧
          ∀ x, x ∈ rw'.2 → x ∈ rw.2 ∧ ¬(x = c ∧ cl.roomid = some i)) →
      Inv t := by
    intro t cl hcl hother hws i rw' hget cid hmem
    obtain ⟨rw, hrw, _, hmem2⟩ := hws i rw' hget
    obtain ⟨hcidmem, hnot⟩ := hmem2 cid hmem
    obtain ⟨cl0, hcl0, hu0, hr0⟩ := hinv i rw hrw cid hcidmem
    by_cases hc : cid = c
    · subst hc
      rw [hcl] at hcl0
      injection hcl0 with hcl0
      subst hcl0
      exact absurd ⟨rfl, hr0⟩ hnot
    · exact ⟨cl0, (hother cid hc).trans hcl0, hu0, hr0⟩
  cases a with
  | Login u =>
    unfold handleAction at h
    cases hl : s.logout c with
    | none => rw [hl] at h; exact absurd h (by simp)
    | some s1 =>
      rw [hl] at h
      simp only [Option.some_bind] at h
      obtain ⟨cl, hcl, hclAfter, hclOther, hfst, hws⟩ := logout_char hl
      rw [hclAfter] at h
      simp only at h
      injection h with h
      subst h
      -- rooms and watcher lists are those of `s1`; only client `c` and
      -- the users map changed afterwards
      refine ofChar _ cl hcl ?_ hws
      intro c' hc'
      show AMap.lookup (AMap.update s1.clients c _) c' = _
      rw [AMap.lookup_update_ne _ _ _ _ hc']
      exact hclOther c' hc'
  | Logout =>
    unfold handleAction at h
    cases hl : s.logout c with
    | none => rw [hl] at h; exact absurd h (by simp)
    | some s1 =>
      rw [hl] at h
      simp only [Option.map_some'] at h
      obtain ⟨cl, hcl, hclAfter, hclOther, hfst, hws⟩ := logout_char hl
      injection h with h
      subst h
      exact ofChar _ cl hcl hclOther hws
  | LeaveRoom =>
    unfold handleAction at h
    cases hl : s.leaveRoom c with
    | none => rw [hl] at h; exact absurd h (by simp)
    | some s1 =>
      rw [hl] at h
      simp only [Option.map_some'] at h
      obtain ⟨cl, hcl, hclAfter, hclOther, husers, hfst, hws⟩ := leaveRoom_char hl
      injection h with h
      subst h
      exact ofChar _ cl hcl hclOther hws
  | WatchRoom rid =>
    unfold handleAction at h
    simp only at h
    cases hcl : AMap.lookup s.clients c with
    | none => rw [hcl] at h; exact absurd h (by simp)
    | some cl =>
      rw [hcl] at h
      simp only at h
      cases huid : cl.userid with
      | none =>
        rw [huid] at h
        simp only at h
        injection h with h
        subst h
        exact hinv
      | some u =>
        rw [huid] at h
        simp only at h
        cases hw : s.watchRoom c rid with
        | none => rw [hw] at h; exact absurd h (by simp)
        | some s1 =>
          rw [hw] at h
          simp only [Option.some_bind] at h
          obtain ⟨cl2, hcl2, hclAfter, hclOther, husers, hfst, hws⟩ := watchRoom_char hw
          cases hget : s1.rooms.get? rid with
          | none => rw [hget] at h; exact absurd h (by simp)
          | some rw0 =>
            rw [hget] at h
            obtain ⟨room, ws⟩ := rw0
            simp only at h
            cases hv : Room.toView I room u with
            | none => rw [hv] at h; exact absurd h (by simp)
            | some rv =>
              rw [hv] at h
              simp only [Option.map_some'] at h
              injection h with h
              subst h
              -- r.state = s1
              have hclc : cl2 = cl := by
                rw [hcl] at hcl2
                injection hcl2 with hcl2
                exact hcl2.symm
              subst hclc
              intro i rw' hg cid hmem
              obtain ⟨rw, hrw, _, hmem2⟩ := hws i rw' hg
              rcases hmem2 cid hmem with ⟨hcidmem, hnot⟩ | ⟨hcid, hi⟩
              · obtain ⟨cl0, hcl0, hu0, hr0⟩ := hinv i rw hrw cid hcidmem
                by_cases hc : cid = c
                · subst hc
                  rw [hcl] at hcl0
                  injection hcl0 with hcl0
                  subst hcl0
                  exact absurd ⟨rfl, hr0⟩ hnot
                · exact ⟨cl0, (hclOther cid hc).trans hcl0, hu0, hr0⟩
              · subst hcid
                exact ⟨{ cl2 with roomid := some rid }, hclAfter, by simp [huid], by simp [hi]⟩
  | NewRoom minP maxP settings =>
    unfold handleAction at h
    simp only at h
    cases hcl : AMap.lookup s.clients c with
    | none => rw [hcl] at h; exact absurd h (by simp)
    | some cl =>
      rw [hcl] at h
      simp only at h
      cases huid : cl.userid with
      | none =>
        rw [huid] at h
        simp only at h
        injection h with h
        subst h
        exact hinv
      | some u =>
        rw [huid] at h
        simp only at h
        have main : ∀ (s1 : ServerState G S) (newRoom : Room G S),
            ((s1.leaveRoom c).bind fun s2 =>
              match AMap.lookup s2.clients c with
              | none => none
              | some _ =>
                match s2.rooms.get? s.rooms.length with
                | none => none
                | some (room, _) =>
                  (Room.toView I room u).map fun rv =>
                    ({ state := { s2 with clients := AMap.update s2.clients c fun cc => { cc with roomid := some s.rooms.length } }, broadcasts := [], response := some (.RoomResp rv) } : HandleResult G S)) = some r →
            s1.users = s.users →
            s1.clients = s.clients →
            s1.rooms = s.rooms ++ [(newRoom, [c])] →
            Inv r.state := by
          intro s1 newRoom hpath husers1 hclients1 hrooms1
          cases hl : s1.leaveRoom c with
          | none => rw [hl] at hpath; exact absurd hpath (by simp)
          | some s2 =>
            rw [hl] at hpath
            simp only [Option.some_bind] at hpath
            obtain ⟨cl2, hcl2, hclAfter, hclOther, husers, hfst, hws⟩ := leaveRoom_char hl
            rw [hclAfter] at hpath
            simp only at hpath
            cases hget : s2.rooms.get? s.rooms.length with
            | none => rw [hget] at hpath; exact absurd hpath (by simp)
            | some rw0 =>
              rw [hget] at hpath
              obtain ⟨room, ws2⟩ := rw0
              simp only at hpath
              cases hv : Room.toView I room u with
              | none => rw [hv] at hpath; exact absurd hpath (by simp)
              | some rv =>
                rw [hv] at hpath
                simp only [Option.map_some'] at hpath
                injection hpath with hpath
                subst hpath
                have hclc : cl2 = cl := by
                  rw [hclients1, hcl] at hcl2
                  injection hcl2 with hcl2
                  exact hcl2.symm
                subst hclc
                intro i rw' hg cid hmem
                obtain ⟨rw, hrw, _, hmem2⟩ := hws i rw' hg
                obtain ⟨hcidmem, hnot⟩ := hmem2 cid hmem
                -- where does room index `i` live in `s1 = s ++ [new]`?
                rw [hrooms1] at hrw
                by_cases hilen : i < s.rooms.length
                · rw [List.get?_append (by simpa using hilen)] at hrw
                  obtain ⟨cl0, hcl0, hu0, hr0⟩ := hinv i rw hrw cid hcidmem
                  by_cases hc : cid = c
                  · subst hc
                    rw [hcl] at hcl0
                    injection hcl0 with hcl0
                    subst hcl0
                    exact absurd ⟨rfl, hr0⟩ hnot
                  · refine ⟨cl0, ?_, hu0, hr0⟩
                    show AMap.lookup (AMap.update s2.clients c _) cid = _
                    rw [AMap.lookup_update_ne _ _ _ _ hc]
                    rw [hclOther cid hc, hclients1]
                    exact hcl0
                · -- `i` is the new room
                  have hile : i ≤ s.rooms.length := by
                    have hlt := (List.get?_eq_some.mp hrw).1
                    simp only [List.length_append, List.length_cons, List.length_nil] at hlt
                    omega
                  have hieq : i = s.rooms.length := by omega
                  subst hieq
                  rw [List.get?_append_right (by simp)] at hrw
                  simp only [Nat.sub_self] at hrw
                  injection hrw with hrw
                  subst hrw
                  simp only [List.mem_singleton] at hcidmem
                  refine ⟨{ cl2 with roomid := some s.rooms.length }, ?_, by simp [huid], rfl⟩
                  rw [hcidmem]
                  have := AMap.lookup_update_self s2.clients c
                    (fun cc : Client => { cc with roomid := some s.rooms.length }) _ hclAfter
                  simpa using this
        exact main _ _ h rfl rfl rfl
  | StartGame =>
    unfold handleAction at h
    simp only at h
    cases hcl : AMap.lookup s.clients c with
    | none => rw [hcl] at h; exact absurd h (by simp)
    | some cl =>
      rw [hcl] at h
      simp only at h
      cases huid : cl.userid with
      | none =>
        rw [huid] at h
        simp only at h
        injection h with h
        subst h
        exact hinv
      | some u =>
        rw [huid] at h
        simp only at h
        cases hrid : cl.roomid with
        | none =>
          rw [hrid] at h
          simp only at h
          injection h with h
          subst h
          exact hinv
        | some rid =>
          rw [hrid] at h
          simp only at h
          cases hsg : startGame I s u rid with
          | none => rw [hsg] at h; exact absurd h (by simp)
          | some res =>
            rw [hsg] at h
            obtain ⟨room, ws, hget, hchar⟩ := startGame_char hsg
            cases res with
            | error e =>
              simp only [Option.some_bind] at h
              injection h with h
              subst h
              exact hinv
            | ok s1 =>
              rcases hchar with ⟨_, habs⟩ | ⟨hmem, room', hsg2, hres⟩
              · cases habs
              · injection hres with hres
                subst hres
                simp only [Option.some_bind, Option.getD_some] at h
                cases hget1 : (({ s with rooms := s.rooms.set rid (room', ws) } : ServerState G S)).rooms.get? rid with
                | none => rw [hget1] at h; exact absurd h (by simp)
                | some rw1 =>
                  rw [hget1] at h
                  obtain ⟨room2, ws2⟩ := rw1
                  simp only at h
                  cases hfo : fanout I s.clients room2 ws2 with
                  | none => rw [hfo] at h; exact absurd h (by simp)
                  | some bs =>
                    rw [hfo] at h
                    simp only [Option.map_some'] at h
                    injection h with h
                    subst h
                    exact inv_set_room hget hinv
  | JoinRoom =>
    unfold handleAction at h
    simp only at h
    cases hcl : AMap.lookup s.clients c with
    | none => rw [hcl] at h; exact absurd h (by simp)
    | some cl =>
      rw [hcl] at h
      simp only at h
      cases huid : cl.userid with
      | none =>
        rw [huid] at h
        simp only at h
        injection h with h
        subst h
        exact hinv
      | some u =>
        rw [huid] at h
        simp only at h
        cases hrid : cl.roomid with
        | none =>
          rw [hrid] at h
          simp only at h
          injection h with h
          subst h
          exact hinv
        | some rid =>
          rw [hrid] at h
          simp only at h
          cases hget : s.rooms.get? rid with
          | none => rw [hget] at h; exact absurd h (by simp)
          | some rw0 =>
            obtain ⟨room, ws⟩ := rw0
            rw [hget] at h
            simp only at h
            have hlt : rid < s.rooms.length := (List.get?_eq_some.mp hget).1
            cases hst : room.state with
            | Started g0 =>
              rw [hst] at h
              simp only [Option.some_bind, Option.getD_none] at h
              injection h with h
              subst h
              exact hinv
            | Ended g0 =>
              rw [hst] at h
              simp only [Option.some_bind, Option.getD_none] at h
              injection h with h
              subst h
              exact hinv
            | WaitingForPlayers mn mx =>
              rw [hst] at h
              simp only at h
              by_cases hmem : u ∈ room.players
              · rw [if_pos hmem] at h
                simp only [Option.some_bind, Option.getD_none] at h
                injection h with h
                subst h
                exact hinv
              · rw [if_neg hmem] at h
                by_cases hfull : room.players.length = mx
                · rw [if_pos hfull] at h
                  simp only [Option.some_bind, Option.getD_none] at h
                  injection h with h
                  subst h
                  exact hinv
                · rw [if_neg hfull] at h
                  by_cases hmax : (room.players ++ [u]).length = mx
                  · rw [if_pos hmax] at h
                    cases hsg : startGame I
                        ({ s with rooms := s.rooms.set rid (({ roomid := room.roomid, settings := room.settings, players := room.players ++ [u], state := RoomState.WaitingForPlayers mn mx } : Room G S), ws) } : ServerState G S) u rid with
                    | none => rw [hsg] at h; exact absurd h (by simp)
                    | some res =>
                      rw [hsg] at h
                      obtain ⟨roomA, wsA, hgetA, hcharA⟩ := startGame_char hsg
                      have hpairs := hgetA.symm.trans
                        (List.get?_set_eq_of_lt (({ roomid := room.roomid, settings := room.settings, players := room.players ++ [u], state := RoomState.WaitingForPlayers mn mx } : Room G S), ws) hlt)
                      injection hpairs with hpairs
                      obtain ⟨hA1, hA2⟩ := Prod.mk.injEq .. |>.mp hpairs
                      rcases hcharA with ⟨hmemA, _⟩ | ⟨hmemA, roomB, hsgB, hres⟩
                      · rw [hA1] at hmemA
                        exact absurd (by simp) hmemA
                      · rw [hA2] at hres
                        subst hres
                        simp only [Option.some_bind, Option.getD_some] at h
                        rw [List.set_set] at h
                        cases hget1 : (s.rooms.set rid (roomB, ws)).get? rid with
                        | none =>
                          rw [show ({ s with rooms := s.rooms.set rid (roomB, ws) } : ServerState G S).rooms.get? rid = (s.rooms.set rid (roomB, ws)).get? rid from rfl, hget1] at h
                          exact absurd h (by simp)
                        | some rw1 =>
                          rw [show ({ s with rooms := s.rooms.set rid (roomB, ws) } : ServerState G S).rooms.get? rid = (s.rooms.set rid (roomB, ws)).get? rid from rfl, hget1] at h
                          obtain ⟨room2, ws2⟩ := rw1
                          simp only at h
                          cases hfo : fanout I s.clients room2 ws2 with
                          | none => rw [hfo] at h; exact absurd h (by simp)
                          | some bs =>
                            rw [hfo] at h
                            simp only [Option.map_some'] at h
                            injection h with h
                            subst h
                            exact inv_set_room hget hinv
                  · rw [if_neg hmax] at h
                    simp only [Option.some_bind, Option.getD_some] at h
                    cases hget1 : (s.rooms.set rid (({ roomid := room.roomid, settings := room.settings, players := room.players ++ [u], state := RoomState.WaitingForPlayers mn mx } : Room G S), ws)).get? rid with
                    | none =>
                      rw [show ({ s with rooms := s.rooms.set rid (({ roomid := room.roomid, settings := room.settings, players := room.players ++ [u], state := RoomState.WaitingForPlayers mn mx } : Room G S), ws) } : ServerState G S).rooms.get? rid = (s.rooms.set rid (({ roomid := room.roomid, settings := room.settings, players := room.players ++ [u], state := RoomState.WaitingForPlayers mn mx } : Room G S), ws)).get? rid from rfl, hget1] at h
                      exact absurd h (by simp)
                    | some rw1 =>
                      rw [show ({ s with rooms := s.rooms.set rid (({ roomid := room.roomid, settings := room.settings, players := room.players ++ [u], state := RoomState.WaitingForPlayers mn mx } : Room G S), ws) } : ServerState G S).rooms.get? rid = (s.rooms.set rid (({ roomid := room.roomid, settings := room.settings, players := room.players ++ [u], state := RoomState.WaitingForPlayers mn mx } : Room G S), ws)).get? rid from rfl, hget1] at h
                      obtain ⟨room2, ws2⟩ := rw1
                      simp only at h
                      cases hfo : fanout I s.clients room2 ws2 with
                      | none => rw [hfo] at h; exact absurd h (by simp)
                      | some bs =>
                        rw [hfo] at h
                        simp only [Option.map_some'] at h
                        injection h with h
                        subst h
                        exact inv_set_room hget hinv
  | MakeMove mov =>
    unfold handleAction at h
    simp only at h
    cases hcl : AMap.lookup s.clients c with
    | none => rw [hcl] at h; exact absurd h (by simp)
    | some cl =>
      rw [hcl] at h
      simp only at h
      cases huid : cl.userid with
      | none =>
        rw [huid] at h
        simp only at h
        injection h with h
        subst h
        exact hinv
      | some u =>
        rw [huid] at h
        simp only at h
        cases hrid : cl.roomid with
        | none =>
          rw [hrid] at h
          simp only at h
          injection h with h
          subst h
          exact hinv
        | some rid =>
          rw [hrid] at h
          simp only at h
          cases hget : s.rooms.get? rid with
          | none => rw [hget] at h; exact absurd h (by simp)
          | some rw0 =>
            obtain ⟨room, ws⟩ := rw0
            rw [hget] at h
            simp only at h
            by_cases hmem : u ∈ room.players
            · rw [if_pos hmem] at h
              cases hmm : RoomState.makeMove I room.state u mov with
              | panic => rw [hmm] at h; exact absurd h (by simp)
              | err e rs1 =>
                rw [hmm] at h
                simp only [Option.some_bind, Option.getD_some] at h
                injection h with h
                subst h
                exact inv_set_room hget hinv
              | ok rs1 =>
                rw [hmm] at h
                simp only [Option.some_bind, Option.getD_some] at h
                cases hget1 : (s.rooms.set rid (({ roomid := room.roomid, settings := room.settings, players := room.players, state := rs1 } : Room G S), ws)).get? rid with
                | none =>
                  rw [show ({ s with rooms := s.rooms.set rid (({ roomid := room.roomid, settings := room.settings, players := room.players, state := rs1 } : Room G S), ws) } : ServerState G S).rooms.get? rid = (s.rooms.set rid (({ roomid := room.roomid, settings := room.settings, players := room.players, state := rs1 } : Room G S), ws)).get? rid from rfl, hget1] at h
                  exact absurd h (by simp)
                | some rw1 =>
                  rw [show ({ s with rooms := s.rooms.set rid (({ roomid := room.roomid, settings := room.settings, players := room.players, state := rs1 } : Room G S), ws) } : ServerState G S).rooms.get? rid = (s.rooms.set rid (({ roomid := room.roomid, settings := room.settings, players := room.players, state := rs1 } : Room G S), ws)).get? rid from rfl, hget1] at h
                  obtain ⟨room2, ws2⟩ := rw1
                  simp only at h
                  cases hfo : fanout I s.clients room2 ws2 with
                  | none => rw [hfo] at h; exact absurd h (by simp)
                  | some bs =>
                    rw [hfo] at h
                    simp only [Option.map_some'] at h
                    injection h with h
                    subst h
                    exact inv_set_room hget hinv
            · rw [if_neg hmem] at h
              simp only [Option.some_bind, Option.getD_none] at h
              injection h with h
              subst h
              exact hinv

end ServerState

end Server

/-! ## The claims -/

namespace Hanabi

open Server ServerState

/-- Evaluation of the below-minimum `StartGame` call. -/
theorem rBelowMinStart_eq :
    handleAction I0 stateBelowMin 0 (Action.StartGame : Action GameVariant Move) =
      some rBelowMinStart :=
  (Option.some_get (by decide)).symm

/-- Evaluation of the `min > max` `NewRoom` call. -/
theorem rNewRoomBadBounds_eq :
    handleAction I0 stateNoRooms 0 (Action.NewRoom 3 2 GameVariant.Base) =
      some rNewRoomBadBounds :=
  (Option.some_get (by decide)).symm

/-- Evaluation of the game-ending `Play 1` call. -/
theorem rEndingPlay_eq :
    handleAction I0 stateStartedRoom 0 (Action.MakeMove (Move.Play 1)) = some rEndingPlay :=
  (Option.some_get (by decide)).symm

/-- Evaluation of the spectator's `Play 1` call. -/
theorem rSpectatorMove_eq :
    handleAction I0 stateWithSpectator 2 (Action.MakeMove (Move.Play 1)) = some rSpectatorMove :=
  (Option.some_get (by decide)).symm

/-- The `cards_per_player` match of `Game::new` has no arm for counts
outside `{2, 3, 4, 5}`. -/
theorem cardsPerPlayerOf_none (n : Nat) (h : n < 2 ∨ 5 < n) : cardsPerPlayerOf n = none := by
  rcases h with h | h
  · interval_cases n <;> rfl
  · obtain ⟨k, rfl⟩ : ∃ k, n = k + 6 := ⟨n - 6, by omega⟩
    rfl

/-- Claim C1: the spec says every successful `MakeMove` is followed by a
poll of the game's `has_ended` which, when it signals terminal, moves the
room from `Started` to `Ended`. The dispatcher has no such poll: on
`stateStartedRoom` the fatal play succeeds (`response = none`, both
watchers receive a view), the resulting game reports `has_ended = true`,
yet the room phase is still `Started`, never `Ended`. -/
theorem C1_no_started_to_ended_transition :
    (handleAction I0 stateStartedRoom 0 (Action.MakeMove (Move.Play 1))).map
      (fun r => (r.response, r.broadcasts.length, r.state.roomPhase? 0,
        ((r.state.rooms.get? 0).bind fun rw => RoomState.game? rw.1.state).map Game.hasEnded)) =
      some (none, 2, some Phase.started, some true) := by decide

/-- Claim C2 (corrected): the spec requires a `StartGame` below
`min_players` to fail, but the dispatcher never reads `min_players`. A
room's phase moves from `Waiting` to `Started` exactly when
`startTrigger` fires: a `JoinRoom` that fills the room to `max_players`,
or a `StartGame` by a user already in the player list — with no lower
bound on the player count. -/
theorem C2_started_iff_trigger {G S M : Type} {I : GameI G S M} {s : ServerState G S}
    {c : ClientId} {a : Action S M} {r : HandleResult G S}
    (h : handleAction I s c a = some r) (i : Nat) :
    (s.roomPhase? i = some Phase.waiting ∧ r.state.roomPhase? i = some Phase.started) ↔
      startTrigger s c a i = true := by
  obtain ⟨hlen, hpres, htrig⟩ := handleAction_phase_char h
  constructor
  · rintro ⟨hw, hs⟩
    cases hg : s.rooms.get? i with
    | none => rw [ServerState.roomPhase?, hg] at hw; exact absurd hw (by simp)
    | some rw0 =>
      rw [ServerState.roomPhase?, hg] at hw
      simp only [Option.map_some'] at hw
      injection hw with hw
      have hi : i < s.rooms.length := (List.get?_eq_some.mp hg).1
      obtain ⟨rwa, rwb, hga, hgb, hdisj⟩ := hpres i hi
      rw [hg] at hga
      injection hga with hga
      subst hga
      rw [ServerState.roomPhase?, hgb] at hs
      simp only [Option.map_some'] at hs
      injection hs with hs
      rcases hdisj with heq | ⟨_, _, ht⟩
      · rw [hw, hs] at heq
        cases heq
      · exact ht
  · intro ht
    obtain ⟨rwa, rwb, hga, hgb, hw, hs⟩ := htrig i ht
    constructor
    · rw [ServerState.roomPhase?, hga, Option.map_some', hw]
    · rw [ServerState.roomPhase?, hgb, Option.map_some', hs]

/-- Counterexample to C2 as stated: `stateBelowMin` has a waiting room
with `min_players = 3` and only two joined players, yet `alice`'s
`StartGame` moves it to `Started`. -/
theorem C2_below_min_starts :
    ((stateBelowMin.rooms.get? 0).map fun rw =>
        (match rw.1.state with
         | RoomState.WaitingForPlayers mn mx => some (mn, mx)
         | _ => none, rw.1.players.length)) = some (some (3, 4), 2) ∧
    (handleAction I0 stateBelowMin 0 (Action.StartGame : Action GameVariant Move)).map
      (fun r => r.state.roomPhase? 0) = some (some Phase.started) := by decide

/-- Witness: the corrected characterization, applied to the
below-minimum `StartGame` on `stateBelowMin` at room `0`. -/
theorem C2_started_iff_trigger_witness :
    (stateBelowMin.roomPhase? 0 = some Phase.waiting ∧
      rBelowMinStart.state.roomPhase? 0 = some Phase.started) ↔
      startTrigger stateBelowMin 0 (Action.StartGame : Action GameVariant Move) 0 = true :=
  C2_started_iff_trigger rBelowMinStart_eq 0

/-- Claim C3 (corrected): the spec requires `NewRoom` with
`min_players > max_players` or `min_players < 1` to be rejected with an
`Error` and to create nothing. The `NewRoom` arm performs no validation
at all: for every logged-in client and every pair of bounds it appends a
room in `WaitingForPlayers min max` whose player list is just the
creator, makes the caller's watched room the new room (the client record
now carries its index), answers with exactly the new room's view (never
an `Error`), broadcasts nothing, and — as long as the caller was not
watching the about-to-be-appended index — leaves the caller as the new
room's only watcher. -/
theorem C3_newRoom_never_validates {G S M : Type} (I : GameI G S M) (s : ServerState G S)
    (c : ClientId) (u : UserId) (minP maxP : Nat) (st : S) (cl : Client)
    {r : HandleResult G S}
    (hcl : AMap.lookup s.clients c = some cl) (huid : cl.userid = some u)
    (h : handleAction I s c (Action.NewRoom minP maxP st) = some r) :
    r.state.rooms.length = s.rooms.length + 1 ∧
    ((r.state.rooms.get? s.rooms.length).map fun rw => (rw.1.state, rw.1.players)) =
      some (RoomState.WaitingForPlayers minP maxP, [u]) ∧
    r.response = some (Response.RoomResp { roomid := s.rooms.length, settings := st, players := [u], state := RoomState.WaitingForPlayers minP maxP }) ∧
    r.broadcasts = [] ∧
    (∃ cl', AMap.lookup r.state.clients c = some cl' ∧ cl'.userid = some u ∧
      cl'.roomid = some s.rooms.length) ∧
    (cl.roomid ≠ some s.rooms.length →
      (r.state.rooms.get? s.rooms.length).map (fun rw => rw.2) = some [c]) := by
  unfold handleAction at h
  simp only at h
  rw [hcl] at h
  simp only at h
  rw [huid] at h
  simp only at h
  have main : ∀ (s1 : ServerState G S) (newRoom : Room G S),
      ((s1.leaveRoom c).bind fun s2 =>
        match AMap.lookup s2.clients c with
        | none => none
        | some _ =>
          match s2.rooms.get? s.rooms.length with
          | none => none
          | some (room, _) =>
            (Room.toView I room u).map fun rv =>
              ({ state := { s2 with clients := AMap.update s2.clients c fun cc => { cc with roomid := some s.rooms.length } }, broadcasts := [], response := some (.RoomResp rv) } : HandleResult G S)) = some r →
      s1.clients = s.clients →
      s1.rooms = s.rooms ++ [(newRoom, [c])] →
      newRoom = { roomid := s.rooms.length, settings := st, players := [u], state := RoomState.WaitingForPlayers minP maxP } →
      r.state.rooms.length = s.rooms.length + 1 ∧
      ((r.state.rooms.get? s.rooms.length).map fun rw => (rw.1.state, rw.1.players)) =
        some (RoomState.WaitingForPlayers minP maxP, [u]) ∧
      r.response = some (Response.RoomResp { roomid := s.rooms.length, settings := st, players := [u], state := RoomState.WaitingForPlayers minP maxP }) ∧
      r.broadcasts = [] ∧
      (∃ cl', AMap.lookup r.state.clients c = some cl' ∧ cl'.userid = some u ∧
        cl'.roomid = some s.rooms.length) ∧
      (cl.roomid ≠ some s.rooms.length →
        (r.state.rooms.get? s.rooms.length).map (fun rw => rw.2) = some [c]) := by
    intro s1 newRoom hpath hclients1 hrooms1 hnew
    subst hnew
    cases hl : s1.leaveRoom c with
    | none => rw [hl] at hpath; exact absurd hpath (by simp)
    | some s2 =>
      rw [hl] at hpath
      simp only [Option.some_bind] at hpath
      obtain ⟨cl2, hcl2, hclAfter, hclOther, husers, hfst, hws⟩ := leaveRoom_char hl
      have hcl2cl : cl2 = cl := by
        rw [hclients1, hcl] at hcl2
        injection hcl2 with e
        exact e.symm
      rw [hclAfter] at hpath
      simp only at hpath
      have hlen2 : s2.rooms.length = s.rooms.length + 1 := by
        have h1 := congrArg List.length hfst
        simp only [List.length_map] at h1
        rw [h1, hrooms1]
        simp
      have hfst2 : (s2.rooms.map Prod.fst).get? s.rooms.length =
          some ({ roomid := s.rooms.length, settings := st, players := [u], state := RoomState.WaitingForPlayers minP maxP } : Room G S) := by
        rw [hfst, hrooms1]
        rw [List.map_append]
        rw [List.get?_append_right (by simp)]
        simp
      cases hget : s2.rooms.get? s.rooms.length with
      | none =>
        have := List.get?_eq_none.mp hget
        omega
      | some rw0 =>
        rw [hget] at hpath
        obtain ⟨room, ws2⟩ := rw0
        have hroom : room = { roomid := s.rooms.length, settings := st, players := [u], state := RoomState.WaitingForPlayers minP maxP } := by
          have h2 := get?_map_fst s2.rooms s.rooms.length _ hget
          rw [hfst2] at h2
          injection h2 with h2
          exact h2.symm
        subst hroom
        simp only at hpath
        have hv : Room.toView I ({ roomid := s.rooms.length, settings := st, players := [u], state := RoomState.WaitingForPlayers minP maxP } : Room G S) u =
            some ({ roomid := s.rooms.length, settings := st, players := [u], state := RoomState.WaitingForPlayers minP maxP } : Room G S) := rfl
        rw [hv] at hpath
        simp only [Option.map_some'] at hpath
        injection hpath with hpath
        subst hpath
        refine ⟨hlen2, ?_, rfl, rfl, ?_, ?_⟩
        · rw [show ({ state := { s2 with clients := AMap.update s2.clients c fun cc => { cc with roomid := some s.rooms.length } }, broadcasts := [], response := some (.RoomResp ({ roomid := s.rooms.length, settings := st, players := [u], state := RoomState.WaitingForPlayers minP maxP } : Room G S)) } : HandleResult G S).state.rooms.get? s.rooms.length = s2.rooms.get? s.rooms.length from rfl, hget]
          rfl
        · refine ⟨{ cl2 with roomid := some s.rooms.length }, ?_, ?_, rfl⟩
          · have hupd := AMap.lookup_update_self s2.clients c
              (fun cc : Client => { cc with roomid := some s.rooms.length }) _ hclAfter
            simpa using hupd
          · show cl2.userid = some u
            rw [hcl2cl]
            exact huid
        · intro hne
          have hother := leaveRoom_rooms_other hl hcl2 s.rooms.length
            (by rw [hcl2cl]; exact hne)
          rw [hrooms1] at hother
          rw [List.get?_append_right (by simp)] at hother
          simp only [Nat.sub_self] at hother
          rw [hget] at hother
          injection hother with hother
          injection hother with h1 h2
          rw [show ({ state := { s2 with clients := AMap.update s2.clients c fun cc => { cc with roomid := some s.rooms.length } }, broadcasts := [], response := some (.RoomResp ({ roomid := s.rooms.length, settings := st, players := [u], state := RoomState.WaitingForPlayers minP maxP } : Room G S)) } : HandleResult G S).state.rooms.get? s.rooms.length = s2.rooms.get? s.rooms.length from rfl, hget]
          simp only [Option.map_some']
          rw [h2]
  exact main _ _ h rfl rfl rfl

/-- Counterexample to C3 as stated: `NewRoom {min := 3, max := 2}` on
`stateNoRooms` creates a room and answers with a non-error response. -/
theorem C3_min_gt_max_room_created :
    (handleAction I0 stateNoRooms 0 (Action.NewRoom 3 2 GameVariant.Base)).map
      (fun r => (r.state.rooms.length, r.response.map Response.isError)) =
      some (1, some false) := by decide

/-- Witness: the corrected `NewRoom` behaviour at the invalid bounds
`min = 3 > max = 2`. -/
theorem C3_newRoom_never_validates_witness :
    rNewRoomBadBounds.state.rooms.length = stateNoRooms.rooms.length + 1 ∧
    ((rNewRoomBadBounds.state.rooms.get? stateNoRooms.rooms.length).map fun rw =>
      (rw.1.state, rw.1.players)) = some (RoomState.WaitingForPlayers 3 2, ["alice"]) ∧
    rNewRoomBadBounds.response = some (Response.RoomResp { roomid := stateNoRooms.rooms.length, settings := GameVariant.Base, players := ["alice"], state := RoomState.WaitingForPlayers 3 2 }) ∧
    rNewRoomBadBounds.broadcasts = [] ∧
    (∃ cl', AMap.lookup rNewRoomBadBounds.state.clients 0 = some cl' ∧
      cl'.userid = some "alice" ∧ cl'.roomid = some stateNoRooms.rooms.length) ∧
    (({ userid := some "alice", roomid := none } : Client).roomid ≠ some stateNoRooms.rooms.length →
      (rNewRoomBadBounds.state.rooms.get? stateNoRooms.rooms.length).map (fun rw => rw.2) =
        some [0]) :=
  C3_newRoom_never_validates I0 stateNoRooms 0 "alice" 3 2 GameVariant.Base
    { userid := some "alice", roomid := none } rfl rfl rNewRoomBadBounds_eq

/-- Claim C4: the spec says a `WatchRoom(id)` naming a nonexistent room
answers with an `Error` and leaves the subscription state alone. Instead
`watchers_mut` indexes `rooms[roomid]` out of bounds and the whole call
panics (`none`): both for a client watching nothing and for one already
watching an existing room. -/
theorem C4_watchRoom_bad_id_panics :
    handleAction I0 stateNoRooms 0 (Action.WatchRoom 0) = none ∧
    handleAction I0 stateStartedRoom 0 (Action.WatchRoom 7) = none := by decide

/-- Claim C5: the Game contract demands that a rejected move leave the
state untouched, but `Game::hint` decrements `self.hints` before
delegating to `Hand::hint`, so an out-of-range value hint is rejected
with the hint counter already spent: `game2p` starts with 8 hints and the
error carries a state with 7. -/
theorem C5_failed_hint_mutates_state :
    game2p.hints = 8 ∧
    Game.makeMoveByName game2p "alice" (Move.Hint 1 (Hint.ValueHint 6)) =
      MRes.err "Hinted value is out of range." { game2p with hints := 7 } ∧
    ({ game2p with hints := 7 } : Game) ≠ game2p := by decide

/-- Claim C6: phases never regress. Across one dispatched action an
existing room's phase rank never decreases, and the only possible change
is `Waiting → Started` (which happens exactly on `startTrigger`, hence at
most once: a `Started` room never matches the trigger again); and on an
`Ended` room every `make_move` fails with "Game already finished",
leaving the state as it was. -/
theorem C6_phase_monotone {G S M : Type} {I : GameI G S M} {s : ServerState G S}
    {c : ClientId} {a : Action S M} {r : HandleResult G S}
    (h : handleAction I s c a = some r) :
    (∀ i rw rw', s.rooms.get? i = some rw → r.state.rooms.get? i = some rw' →
       Phase.rank rw.1.state.phase ≤ Phase.rank rw'.1.state.phase ∧
       (rw'.1.state.phase ≠ rw.1.state.phase →
         rw.1.state.phase = Phase.waiting ∧ rw'.1.state.phase = Phase.started ∧
           startTrigger s c a i = true)) ∧
    (∀ (u : UserId) (mov : M) (rs : RoomState G), rs.phase = Phase.ended →
       RoomState.makeMove I rs u mov = MRes.err "Game already finished" rs) := by
  obtain ⟨hlen, hpres, htrig⟩ := handleAction_phase_char h
  constructor
  · intro i rw rw' hg hg'
    have hi : i < s.rooms.length := (List.get?_eq_some.mp hg).1
    obtain ⟨rwa, rwb, hga, hgb, hdisj⟩ := hpres i hi
    rw [hg] at hga
    injection hga with hga
    subst hga
    rw [hg'] at hgb
    injection hgb with hgb
    subst hgb
    rcases hdisj with heq | ⟨hw, hs, ht⟩
    · exact ⟨le_of_eq (congrArg Phase.rank heq).symm, fun hne => absurd heq hne⟩
    · rw [hw, hs]
      exact ⟨by decide, fun _ => ⟨rfl, rfl, ht⟩⟩
  · intro u mov rs hrs
    obtain ⟨g, hgeq, hmk⟩ := RoomState.makeMove_ended rs u mov hrs
    rw [hgeq]
    rw [hgeq] at hmk
    exact hmk

/-- Witness: monotonicity across the game-ending play on
`stateStartedRoom`, compared at room `0`. -/
theorem C6_phase_monotone_witness :
    Phase.rank (stateStartedRoom.rooms.get ⟨0, by decide⟩).1.state.phase ≤
      Phase.rank (rEndingPlay.state.rooms.get ⟨0, by decide⟩).1.state.phase :=
  ((C6_phase_monotone rEndingPlay_eq).1 0 _ _ rfl rfl).1

/-- Claim C7: a failed `MakeMove` reaches no watcher. Whenever the
`MakeMove` arm answers the caller directly (in particular with any
`Error`), it has returned before the fan-out loop and the broadcast list
is empty; and the not-a-player case is exactly the early return
`Error("User did not join room")` with the state unchanged. -/
theorem C7_failed_move_no_broadcast {G S M : Type} {I : GameI G S M} {s : ServerState G S}
    {c : ClientId} {mov : M} {r : HandleResult G S}
    (h : handleAction I s c (Action.MakeMove mov) = some r) :
    (∀ resp, r.response = some resp → r.broadcasts = []) ∧
    (∀ {cl : Client} {u : UserId} {rid : Nat} {room : Room G S} {ws : List ClientId},
      AMap.lookup s.clients c = some cl → cl.userid = some u →
      cl.roomid = some rid → s.rooms.get? rid = some (room, ws) → u ∉ room.players →
      r = { state := s, broadcasts := [],
            response := some (Response.Error "User did not join room") }) := by
  unfold handleAction at h
  simp only at h
  cases hcl : AMap.lookup s.clients c with
  | none => rw [hcl] at h; exact absurd h (by simp)
  | some cl =>
    rw [hcl] at h
    simp only at h
    cases huid : cl.userid with
    | none =>
      rw [huid] at h
      simp only at h
      injection h with h
      subst h
      refine ⟨fun resp _ => rfl, ?_⟩
      intro cl' u rid room ws hcl' huid' _ _ _
      injection hcl' with hcl'
      subst hcl'
      rw [huid] at huid'
      exact absurd huid' (by simp)
    | some u =>
      rw [huid] at h
      simp only at h
      cases hrid : cl.roomid with
      | none =>
        rw [hrid] at h
        simp only at h
        injection h with h
        subst h
        refine ⟨fun resp _ => rfl, ?_⟩
        intro cl' u' rid room ws hcl' huid' hrid' _ _
        injection hcl' with hcl'
        subst hcl'
        rw [hrid] at hrid'
        exact absurd hrid' (by simp)
      | some rid =>
        rw [hrid] at h
        simp only at h
        cases hget : s.rooms.get? rid with
        | none => rw [hget] at h; exact absurd h (by simp)
        | some rw0 =>
          obtain ⟨room, ws⟩ := rw0
          rw [hget] at h
          simp only at h
          by_cases hmem : u ∈ room.players
          · rw [if_pos hmem] at h
            cases hmm : RoomState.makeMove I room.state u mov with
            | panic => rw [hmm] at h; exact absurd h (by simp)
            | err e rs1 =>
              rw [hmm] at h
              simp only [Option.some_bind, Option.getD_some] at h
              injection h with h
              subst h
              refine ⟨fun resp _ => rfl, ?_⟩
              intro cl' u' rid' room' ws' hcl' huid' hrid' hget' hmem'
              injection hcl' with hcl'
              subst hcl'
              rw [huid] at huid'
              injection huid' with huid'
              subst huid'
              rw [hrid] at hrid'
              injection hrid' with hrid'
              subst hrid'
              rw [hget] at hget'
              injection hget' with hget'
              injection hget' with hget1 hget2
              rw [← hget1] at hmem'
              exact absurd hmem hmem'
            | ok rs1 =>
              rw [hmm] at h
              simp only [Option.some_bind, Option.getD_some] at h
              cases hget1 : (s.rooms.set rid (({ roomid := room.roomid, settings := room.settings, players := room.players, state := rs1 } : Room G S), ws)).get? rid with
              | none =>
                rw [show ({ s with rooms := s.rooms.set rid (({ roomid := room.roomid, settings := room.settings, players := room.players, state := rs1 } : Room G S), ws) } : ServerState G S).rooms.get? rid = (s.rooms.set rid (({ roomid := room.roomid, settings := room.settings, players := room.players, state := rs1 } : Room G S), ws)).get? rid from rfl, hget1] at h
                exact absurd h (by simp)
              | some rw1 =>
                rw [show ({ s with rooms := s.rooms.set rid (({ roomid := room.roomid, settings := room.settings, players := room.players, state := rs1 } : Room G S), ws) } : ServerState G S).rooms.get? rid = (s.rooms.set rid (({ roomid := room.roomid, settings := room.settings, players := room.players, state := rs1 } : Room G S), ws)).get? rid from rfl, hget1] at h
                obtain ⟨room2, ws2⟩ := rw1
                simp only at h
                cases hfo : fanout I s.clients room2 ws2 with
                | none => rw [hfo] at h; exact absurd h (by simp)
                | some bs =>
                  rw [hfo] at h
                  simp only [Option.map_some'] at h
                  injection h with h
                  subst h
                  refine ⟨fun resp hresp => absurd hresp (by simp), ?_⟩
                  intro cl' u' rid' room' ws' hcl' huid' hrid' hget' hmem'
                  injection hcl' with hcl'
                  subst hcl'
                  rw [huid] at huid'
                  injection huid' with huid'
                  subst huid'
                  rw [hrid] at hrid'
                  injection hrid' with hrid'
                  subst hrid'
                  rw [hget] at hget'
                  injection hget' with hget'
                  injection hget' with hget1 hget2
                  rw [← hget1] at hmem'
                  exact absurd hmem hmem'
          · rw [if_neg hmem] at h
            simp only [Option.some_bind, Option.getD_none] at h
            injection h with h
            subst h
            refine ⟨fun resp _ => rfl, ?_⟩
            intro cl' u' rid' room' ws' hcl' huid' hrid' hget' hmem'
            rfl

/-- Witness: the spectator `dave`'s move on `stateWithSpectator` is the
exact no-broadcast error result. -/
theorem C7_failed_move_no_broadcast_witness :
    rSpectatorMove = { state := stateWithSpectator, broadcasts := [], response := some (Response.Error "User did not join room") } :=
  (C7_failed_move_no_broadcast rSpectatorMove_eq).2 rfl rfl rfl rfl (by decide)

/-- Claim C8: the spec calls `to_view` idempotent, but `Hand::to_view`
panics on a hand that is already `Hidden`. Viewing `game2p` once for
`alice` succeeds; viewing the redacted result again for `alice` panics
(`none`) instead of returning the same state. -/
theorem C8_toView_not_idempotent :
    (Game.toViewByName game2p "alice").isSome = true ∧
    ((Game.toViewByName game2p "alice").bind fun v => Game.toViewByName v "alice") = none := by
  decide

/-- Claim C9: the watcher-set invariant — every client id in any room's
watcher list maps to a logged-in client watching that room — is preserved
by every dispatched action, by `disconnect`, and by `connect` of a fresh
client; and under it (plus totality of the room view) the broadcast
fan-out never hits a failing `unwrap`. -/
theorem C9_watcher_invariant_preserved {G S M : Type} {I : GameI G S M}
    {s : ServerState G S} {c : ClientId} (hinv : Inv s) :
    (∀ (a : Action S M) (r : HandleResult G S), handleAction I s c a = some r →
       Inv r.state ∧
       ∀ i room ws, r.state.rooms.get? i = some (room, ws) →
         (∀ u, (Room.toView I room u).isSome) →
         (fanout I r.state.clients room ws).isSome) ∧
    (∀ s', s.disconnect c = some s' → Inv s') ∧
    (AMap.lookup s.clients c = none → Inv (s.connect c).1) := by
  refine ⟨?_, ?_, ?_⟩
  · intro a r h
    have hinv' := handleAction_inv h hinv
    refine ⟨hinv', ?_⟩
    intro i room ws hget hview
    refine fanout_isSome ?_ hview
    intro wc hwc
    obtain ⟨cl, hcl, huid, _⟩ := hinv' i (room, ws) hget wc hwc
    exact ⟨cl, hcl, huid⟩
  · intro s' hd
    exact disconnect_inv hd hinv
  · intro hfresh
    exact connect_inv hfresh hinv

/-- Witness: the invariant survives the spectator's rejected move on
`stateWithSpectator`. -/
theorem C9_watcher_invariant_preserved_witness :
    Inv rSpectatorMove.state :=
  ((C9_watcher_invariant_preserved ((invB_iff stateWithSpectator).mp (by decide))).1
    (Action.MakeMove (Move.Play 1)) rSpectatorMove rSpectatorMove_eq).1

/-- Claim C10: `Game::new` panics (`none`) for every frozen player list
whose length is outside `{2, 3, 4, 5}`, and the server's start path does
not validate the count: starting the 1-player room of
`stateOnePlayerRoom` via `StartGame` panics for every rng instead of
answering with an `Error`. -/
theorem C10_new_bad_player_count_panics :
    (∀ (rng : Rng) (players : List String) (v : GameVariant),
       players.length < 2 ∨ 5 < players.length → Game.new rng players v = none) ∧
    (∀ rng : Rng,
       handleAction (gameI rng) stateOnePlayerRoom 0
         (Action.StartGame : Action GameVariant Move) = none) := by
  constructor
  · intro rng players v hlen
    rcases Nat.eq_zero_or_pos players.length with h0 | h0
    · simp [Game.new, h0]
    · have hcpp := cardsPerPlayerOf_none players.length hlen
      simp [Game.new, Nat.pos_iff_ne_zero.mp h0, hcpp]
  · intro rng
    rfl

/-- Witness: the 1-player instantiation with the concrete rng. -/
theorem C10_new_bad_player_count_panics_witness :
    Game.new rng0 ["alice"] GameVariant.Base = none ∧
    handleAction (gameI rng0) stateOnePlayerRoom 0
      (Action.StartGame : Action GameVariant Move) = none :=
  ⟨C10_new_bad_player_count_panics.1 rng0 ["alice"] GameVariant.Base (Or.inl (by decide)),
   C10_new_bad_player_count_panics.2 rng0⟩

end Hanabi
